import Mathlib

/-!
Verification development for the frame-pipelined renderer in
`src/Assignment2/Week7-2-TreeBillboardsApp.cpp`.

The development shallowly embeds the parts of the program that the
specification talks about:

* the frame-resource ring with its fence-based CPU/GPU synchronisation
  (`TreeBillboardsApp::Update`, lines 258-282, and the fence stamping in
  `TreeBillboardsApp::Draw`, lines 345-350);
* the dirty-constant propagation into per-slot upload buffers
  (`UpdateObjectCBs`, `UpdateMaterialCBs`, `AnimateMaterials`);
* the wave-to-GPU vertex streaming (`UpdateWaves`);
* the draw-submission protocol (`DrawRenderItems` and the layer sequence
  recorded by `Draw`);
* the build-time index assignment (`BuildRenderItems`, `BuildMaterials`,
  `BuildFrameResources`).

Machine floating-point values are modelled by exact rationals, machine
integers by `Nat`/`Int`; upload buffers are modelled as functions from
indices to optional records, instrumented with a write counter per index
(the "test double standing in for the GPU" of the specification).
-/

namespace TreeBillboards

/-- Source line 20: `const int gNumFrameResources = 3;`. -/
def gNumFrameResources : Nat := 3

/-! ## Frame-resource ring and fence synchronisation

State of the synchronisation-relevant variables of the main loop:
`mCurrFrameResourceIndex`, the per-slot `FrameResource::Fence` values,
the global `mCurrentFence` counter, and the device's completed fence
value (`mFence->GetCompletedValue()`).  The GPU's progress between two
observations is an oracle input `g` to each tick. -/
structure RingState where
  currFrameResourceIndex : Nat
  fences : Nat → Nat
  currentFence : Nat
  completed : Nat

/-- The kinds of CPU writes the update phase performs into the selected
slot's upload buffers (`UpdateObjectCBs`, `UpdateMaterialCBs`,
`UpdateMainPassCB`, `UpdateWaves`, lines 277-281). -/
inductive BufferKind where
  | objectCB
  | materialCB
  | passCB
  | wavesVB
deriving DecidableEq, Repr

/-- Trace record of one tick of the main loop: which slot was selected,
the slot's stored fence value at selection time, the device's completed
fence value at the moment the CPU writes into the slot's buffers begin,
the buffers written, and the fence value stamped on the slot at the end
of `Draw`. -/
structure TickTrace where
  slot : Nat
  prevFence : Nat
  completedAtWrite : Nat
  writes : List BufferKind
  newFence : Nat
deriving DecidableEq, Repr

/-- One tick of the main loop, synchronisation part, traced from
`TreeBillboardsApp::Update` lines 263-281 and `TreeBillboardsApp::Draw`
lines 345-350.  `g` is the device's progress (additional completed
work) observed at the `GetCompletedValue` call; the `WaitForSingleObject`
wait returns once the completed value has reached the slot's fence. -/
def ringTick (g : Nat) (s : RingState) : RingState × TickTrace :=
  -- mCurrFrameResourceIndex = (mCurrFrameResourceIndex + 1) % gNumFrameResources;
  let idx := (s.currFrameResourceIndex + 1) % gNumFrameResources
  let observed := s.completed + g
  let fenceVal := s.fences idx
  -- if(mCurrFrameResource->Fence != 0 && mFence->GetCompletedValue() < mCurrFrameResource->Fence)
  --     { ... WaitForSingleObject(eventHandle, INFINITE); ... }
  let completedAfterWait := if fenceVal ≠ 0 ∧ observed < fenceVal then fenceVal else observed
  -- AnimateMaterials / UpdateObjectCBs / UpdateMaterialCBs / UpdateMainPassCB / UpdateWaves
  -- write into slot idx's upload buffers here, then Draw stamps the slot:
  -- mCurrFrameResource->Fence = ++mCurrentFence;
  let newFence := s.currentFence + 1
  ({ currFrameResourceIndex := idx
     fences := Function.update s.fences idx newFence
     currentFence := newFence
     completed := completedAfterWait },
   { slot := idx
     prevFence := fenceVal
     completedAtWrite := completedAfterWait
     writes := [BufferKind.objectCB, BufferKind.materialCB, BufferKind.passCB, BufferKind.wavesVB]
     newFence := newFence })

/-- A run of the main loop over a list of GPU-progress oracle values,
returning the final state and the tick trace, in tick order. -/
def ringRun (gs : List Nat) (s : RingState) : RingState × List TickTrace :=
  match gs with
  | [] => (s, [])
  | g :: rest =>
    let (s', t) := ringTick g s
    let (sFinal, ts) := ringRun rest s'
    (sFinal, t :: ts)

/-- The initial state of the loop: `mCurrFrameResourceIndex = 0`, all
`FrameResource::Fence` values `0`, `mCurrentFence = 0`, nothing
completed yet. -/
def initRing : RingState :=
  { currFrameResourceIndex := 0
    fences := fun _ => 0
    currentFence := 0
    completed := 0 }

/-- The sequence of slot indices selected over a run from the initial
state. -/
def selectedSlots (gs : List Nat) : List Nat :=
  ((ringRun gs initRing).2).map TickTrace.slot

theorem ringTick_wait_then_write (g : Nat) (s : RingState) :
    (ringTick g s).2.prevFence = 0 ∨
      (ringTick g s).2.prevFence ≤ (ringTick g s).2.completedAtWrite := by
  simp only [ringTick]
  by_cases h : s.fences ((s.currFrameResourceIndex + 1) % gNumFrameResources) ≠ 0 ∧
      s.completed + g < s.fences ((s.currFrameResourceIndex + 1) % gNumFrameResources)
  · rw [if_pos h]; right; exact le_refl _
  · rw [if_neg h]; omega

theorem ringRun_writes_fixed (gs : List Nat) (s : RingState) :
    ∀ t ∈ (ringRun gs s).2,
      t.writes = [BufferKind.objectCB, BufferKind.materialCB,
        BufferKind.passCB, BufferKind.wavesVB] := by
  induction gs generalizing s with
  | nil => intro t ht; simp [ringRun] at ht
  | cons g rest ih =>
    intro t ht
    simp only [ringRun] at ht
    rcases List.mem_cons.mp ht with h | h
    · subst h; rfl
    · exact ih _ t h

theorem ringRun_wait_then_write (gs : List Nat) (s : RingState) :
    ∀ t ∈ (ringRun gs s).2, t.prevFence = 0 ∨ t.prevFence ≤ t.completedAtWrite := by
  induction gs generalizing s with
  | nil => intro t ht; simp [ringRun] at ht
  | cons g rest ih =>
    intro t ht
    simp only [ringRun] at ht
    rcases List.mem_cons.mp ht with h | h
    · subst h; exact ringTick_wait_then_write g s
    · exact ih _ t h

/-- C1: Wait-then-write fence gating.  In every tick of every run of the
main loop, the CPU writes into the selected slot's upload buffers
(object constants, material constants, pass constants, wave vertex
buffer) happen at a moment when the slot's previously stored fence value
is zero or is at most the device's completed fence value: the
slot-selection step blocks on the OS event wait otherwise, so no write
into a slot's buffers precedes completion of that slot's previously
recorded fence. -/
theorem c1_wait_then_write_fence_gating (gs : List Nat) :
    ∀ t ∈ (ringRun gs initRing).2,
      t.writes = [BufferKind.objectCB, BufferKind.materialCB,
        BufferKind.passCB, BufferKind.wavesVB] ∧
      (t.prevFence = 0 ∨ t.prevFence ≤ t.completedAtWrite) := by
  intro t ht
  exact ⟨ringRun_writes_fixed gs initRing t ht, ringRun_wait_then_write gs initRing t ht⟩

/-- Concrete trace element of the one-tick run from the initial state,
used to witness C1. -/
def c1WitTrace : TickTrace :=
  { slot := 1, prevFence := 0, completedAtWrite := 0
    writes := [BufferKind.objectCB, BufferKind.materialCB,
      BufferKind.passCB, BufferKind.wavesVB]
    newFence := 1 }

/-- Witness for C1: the first tick of a one-tick run from the initial
state; the membership hypothesis holds by computation. -/
theorem c1_witness :
    c1WitTrace.writes = [BufferKind.objectCB, BufferKind.materialCB,
      BufferKind.passCB, BufferKind.wavesVB] ∧
    (c1WitTrace.prevFence = 0 ∨ c1WitTrace.prevFence ≤ c1WitTrace.completedAtWrite) :=
  c1_wait_then_write_fence_gating [0] c1WitTrace (by decide)

theorem ringRun_length (gs : List Nat) (s : RingState) :
    (ringRun gs s).2.length = gs.length := by
  induction gs generalizing s with
  | nil => rfl
  | cons g rest ih => simp [ringRun, ih]

theorem ringTick_index (g : Nat) (s : RingState) :
    ((ringTick g s).1).currFrameResourceIndex =
      (s.currFrameResourceIndex + 1) % gNumFrameResources := rfl

theorem ringRun_slots (gs : List Nat) (s : RingState) :
    ((ringRun gs s).2).map TickTrace.slot =
      (List.range gs.length).map
        (fun k => (s.currFrameResourceIndex + k + 1) % gNumFrameResources) := by
  induction gs generalizing s with
  | nil => rfl
  | cons g rest ih =>
    simp only [ringRun, List.map_cons, List.length_cons, List.range_succ_eq_map,
      List.map_map]
    rw [ih]
    congr 1
    refine List.map_congr_left fun a ha => ?_
    simp only [Function.comp_apply, ringTick, gNumFrameResources]
    omega

/-- C2 counterexample: from the initial state (`mCurrFrameResourceIndex
= 0`), the first three ticks select slots 1, 2, 0 — not 0, 1, 2 — since
each tick first increments the index modulo 3 and only then uses it.
The claimed selected-index sequence 0,1,2,0,1,2,... is therefore false
at the very first tick. -/
theorem c2_counterexample :
    selectedSlots [0, 0, 0] = [1, 2, 0] ∧ selectedSlots [0, 0, 0] ≠ [0, 1, 2] := by
  constructor
  · rfl
  · decide

/-- C2 (amended): frame-resource slot selection is a pure cyclic
sequence: on every tick the scheduler selects slot (current+1) mod 3;
since the stored index starts at 0, the k-th tick (k counted from 0)
selects slot (k+1) mod 3, so over any run the selected sequence is
1,2,0,1,2,0,... — consecutive selections always advance by exactly one
modulo 3, never skipping or repeating out of order. -/
theorem c2_slot_selection_cyclic (gs : List Nat) :
    selectedSlots gs = (List.range gs.length).map (fun k => (k + 1) % 3) := by
  simpa [selectedSlots, initRing, gNumFrameResources] using ringRun_slots gs initRing

/-! ## Constant data model

`XMFLOAT3` / `XMFLOAT4` / `XMFLOAT4X4` values are modelled with exact
rational entries. -/

structure Float3 where
  x : ℚ
  y : ℚ
  z : ℚ
deriving DecidableEq, Repr

structure Float4 where
  x : ℚ
  y : ℚ
  z : ℚ
  w : ℚ
deriving DecidableEq, Repr

/-- A 4x4 matrix (`XMFLOAT4X4`). -/
abbrev Mat4 := Matrix (Fin 4) (Fin 4) ℚ

/-- Source `struct RenderItem` (lines 24-55), restricted to the fields the
constant-update path reads and writes. -/
structure RenderItem where
  World : Mat4
  TexTransform : Mat4
  NumFramesDirty : Int
  ObjCBIndex : Nat

/-- Source `struct ObjectConstants` (FrameResource.h): per-object constant
record holding the world and texture transforms. -/
structure ObjectConstants where
  World : Mat4
  TexTransform : Mat4

/-- Source `struct Material` (d3dUtil.h), the fields used by
`AnimateMaterials` / `UpdateMaterialCBs` / `DrawRenderItems`.  The
initial `NumFramesDirty = gNumFrameResources` default is part of the
declaration. -/
structure Material where
  Name : String
  MatCBIndex : Nat
  DiffuseSrvHeapIndex : Nat
  DiffuseAlbedo : Float4
  FresnelR0 : Float3
  Roughness : ℚ
  MatTransform : Mat4
  NumFramesDirty : Int

/-- Source `struct MaterialConstants` (d3dUtil.h / FrameResource.h). -/
structure MaterialConstants where
  DiffuseAlbedo : Float4
  FresnelR0 : Float3
  Roughness : ℚ
  MatTransform : Mat4

/-- An upload buffer (`UploadBuffer<T>`): index-addressed storage, here
instrumented with a per-index write counter so that "the slot's buffer
was written exactly once" is observable (the test double of the
specification). -/
structure UploadBuf (α : Type) where
  data : Nat → Option α
  writes : Nat → Nat

/-- Models `UploadBuffer<T>::CopyData(elementIndex, data)`. -/
def UploadBuf.copyData {α : Type} (b : UploadBuf α) (i : Nat) (v : α) : UploadBuf α :=
  { data := Function.update b.data i (some v)
    writes := fun j => if j = i then b.writes j + 1 else b.writes j }

/-- A freshly created upload buffer: nothing stored, nothing written. -/
def UploadBuf.empty (α : Type) : UploadBuf α :=
  { data := fun _ => none, writes := fun _ => 0 }

/-- The object-constant record computed by `UpdateObjectCBs`
(lines 441-446): the transposes of `World` and `TexTransform`. -/
def objectConstantsOf (e : RenderItem) : ObjectConstants :=
  { World := e.World.transpose
    TexTransform := e.TexTransform.transpose }

/-- The loop body of `UpdateObjectCBs` (lines 437-452) for one render
item: if the item's dirty counter is positive, write the recomputed
record at `ObjCBIndex` and decrement the counter. -/
def updateObjectCBsStep (e : RenderItem) (buf : UploadBuf ObjectConstants) :
    RenderItem × UploadBuf ObjectConstants :=
  if 0 < e.NumFramesDirty then
    ({ e with NumFramesDirty := e.NumFramesDirty - 1 },
      buf.copyData e.ObjCBIndex (objectConstantsOf e))
  else (e, buf)

/-- Models `TreeBillboardsApp::UpdateObjectCBs` (lines 432-454): the loop over
`mAllRitems` against the current frame resource's `ObjectCB`. -/
def updateObjectCBs : List RenderItem → UploadBuf ObjectConstants →
    List RenderItem × UploadBuf ObjectConstants
  | [], buf => ([], buf)
  | e :: rest, buf =>
    let (e', buf') := updateObjectCBsStep e buf
    let (rest', buf'') := updateObjectCBs rest buf'
    (e' :: rest', buf'')

/-- The material-constant record computed by `UpdateMaterialCBs`
(lines 466-472): albedo, Fresnel term and roughness copied verbatim,
`MatTransform` transposed. -/
def materialConstantsOf (m : Material) : MaterialConstants :=
  { DiffuseAlbedo := m.DiffuseAlbedo
    FresnelR0 := m.FresnelR0
    Roughness := m.Roughness
    MatTransform := m.MatTransform.transpose }

/-- The loop body of `UpdateMaterialCBs` (lines 463-478) for one
material. -/
def updateMaterialCBsStep (m : Material) (buf : UploadBuf MaterialConstants) :
    Material × UploadBuf MaterialConstants :=
  if 0 < m.NumFramesDirty then
    ({ m with NumFramesDirty := m.NumFramesDirty - 1 },
      buf.copyData m.MatCBIndex (materialConstantsOf m))
  else (m, buf)

/-- Models `TreeBillboardsApp::UpdateMaterialCBs` (lines 456-480): the loop
over `mMaterials` against the current frame resource's `MaterialCB`. -/
def updateMaterialCBs : List Material → UploadBuf MaterialConstants →
    List Material × UploadBuf MaterialConstants
  | [], buf => ([], buf)
  | m :: rest, buf =>
    let (m', buf') := updateMaterialCBsStep m buf
    let (rest', buf'') := updateMaterialCBs rest buf'
    (m' :: rest', buf'')

/-- Pointwise update of one matrix entry (assignment through
`XMFLOAT4X4::operator()`). -/
def setEntry (M : Mat4) (r c : Fin 4) (v : ℚ) : Mat4 :=
  fun i j => if i = r ∧ j = c then v else M i j

/-- Models `TreeBillboardsApp::AnimateMaterials` (lines 408-430): scroll the
water material's texture-transform translation row and re-arm its dirty
counter to `gNumFrameResources`.  `0.1f` and `0.02f` are the scroll
speeds; both coordinates wrap below 1. -/
def animateWaterMaterial (dt : ℚ) (m : Material) : Material :=
  let tu0 := m.MatTransform 3 0 + (1 / 10) * dt
  let tv0 := m.MatTransform 3 1 + (1 / 50) * dt
  let tu := if tu0 ≥ 1 then tu0 - 1 else tu0
  let tv := if tv0 ≥ 1 then tv0 - 1 else tv0
  { m with
    MatTransform := setEntry (setEntry m.MatTransform 3 0 tu) 3 1 tv
    NumFramesDirty := (gNumFrameResources : Int) }

/-- C4: On each tick, for every render item with positive dirty counter
the object-constant record written into the current slot's upload
buffer at index `ObjCBIndex` holds the transposes of the item's `World`
and `TexTransform` matrices, and for every material with positive dirty
counter the material-constant record written at index `MatCBIndex`
holds `DiffuseAlbedo`, `FresnelR0` and `Roughness` copied verbatim
together with the transposed `MatTransform`; the counter is then
decremented by 1. -/
theorem c4_constant_record_recomputation (e : RenderItem) (m : Material)
    (obuf : UploadBuf ObjectConstants) (mbuf : UploadBuf MaterialConstants)
    (he : 0 < e.NumFramesDirty) (hm : 0 < m.NumFramesDirty) :
    ((updateObjectCBsStep e obuf).2.data e.ObjCBIndex =
        some { World := e.World.transpose, TexTransform := e.TexTransform.transpose } ∧
      (updateObjectCBsStep e obuf).1.NumFramesDirty = e.NumFramesDirty - 1) ∧
    ((updateMaterialCBsStep m mbuf).2.data m.MatCBIndex =
        some { DiffuseAlbedo := m.DiffuseAlbedo, FresnelR0 := m.FresnelR0,
               Roughness := m.Roughness, MatTransform := m.MatTransform.transpose } ∧
      (updateMaterialCBsStep m mbuf).1.NumFramesDirty = m.NumFramesDirty - 1) := by
  refine ⟨⟨?_, ?_⟩, ⟨?_, ?_⟩⟩ <;>
    simp [updateObjectCBsStep, updateMaterialCBsStep, he, hm, UploadBuf.copyData,
      objectConstantsOf, materialConstantsOf]

/-- Witness for C4 at a concrete render item, material and empty
buffers: both dirty counters are 3, so both hypotheses hold. -/
theorem c4_witness :
    let e : RenderItem := { World := 1, TexTransform := 1, NumFramesDirty := 3, ObjCBIndex := 0 }
    let m : Material := { Name := "water", MatCBIndex := 2, DiffuseSrvHeapIndex := 2,
                          DiffuseAlbedo := ⟨1, 1, 1, 1 / 2⟩, FresnelR0 := ⟨1 / 10, 1 / 10, 1 / 10⟩,
                          Roughness := 0, MatTransform := 1, NumFramesDirty := 3 }
    ((updateObjectCBsStep e (UploadBuf.empty ObjectConstants)).2.data e.ObjCBIndex =
        some { World := e.World.transpose, TexTransform := e.TexTransform.transpose } ∧
      (updateObjectCBsStep e (UploadBuf.empty ObjectConstants)).1.NumFramesDirty =
        e.NumFramesDirty - 1) ∧
    ((updateMaterialCBsStep m (UploadBuf.empty MaterialConstants)).2.data m.MatCBIndex =
        some { DiffuseAlbedo := m.DiffuseAlbedo, FresnelR0 := m.FresnelR0,
               Roughness := m.Roughness, MatTransform := m.MatTransform.transpose } ∧
      (updateMaterialCBsStep m (UploadBuf.empty MaterialConstants)).1.NumFramesDirty =
        m.NumFramesDirty - 1) :=
  c4_constant_record_recomputation _ _ _ _ (by decide) (by decide)

/-! ## The update phase of a tick

`TreeBillboardsApp::Update` (lines 258-282) selects the next frame
resource slot and then runs `AnimateMaterials`, `UpdateObjectCBs` and
`UpdateMaterialCBs` against that slot's upload buffers.  (The pass
constants and the wave vertex buffer are handled separately below.) -/

/-- Replace the element at one position of a list (in-place mutation of
a container entry). -/
def modifyAt {α : Type} (f : α → α) : Nat → List α → List α
  | _, [] => []
  | 0, a :: l => f a :: l
  | n + 1, a :: l => a :: modifyAt f n l

/-- State of the constant-propagation path: the current ring index, the
render items, the materials (with the position of the "water" entry),
and the per-slot upload buffers. -/
structure UpdateState where
  currFrameResourceIndex : Nat
  allRitems : List RenderItem
  materials : List Material
  waterIdx : Nat
  objBufs : Nat → UploadBuf ObjectConstants
  matBufs : Nat → UploadBuf MaterialConstants

/-- The dirty counter of the material stored at position `q`, read off
a material list (0 when out of range). -/
def matDirtyAt (mats : List Material) (q : Nat) : Int :=
  (mats[q]?).elim 0 Material.NumFramesDirty

/-- Per-tick observations about the water material: its dirty counter
after `AnimateMaterials` (before the decrement in
`UpdateMaterialCBs`), its counter after `UpdateMaterialCBs`, and
whether `UpdateMaterialCBs` wrote its record this tick (it writes
exactly when the counter is positive). -/
structure UpdateTickTrace where
  slot : Nat
  waterDirtyPreDecrement : Int
  waterDirtyPostDecrement : Int
  waterWrote : Bool

/-- One update phase: select slot `(current+1) mod 3` (line 264), run
`AnimateMaterials` (water material only, line 277), then
`UpdateObjectCBs` (line 278) and `UpdateMaterialCBs` (line 279) against
the selected slot's buffers. -/
def updateTick (dt : ℚ) (s : UpdateState) : UpdateState × UpdateTickTrace :=
  let idx := (s.currFrameResourceIndex + 1) % gNumFrameResources
  let mats1 := modifyAt (animateWaterMaterial dt) s.waterIdx s.materials
  let (items', objBuf') := updateObjectCBs s.allRitems (s.objBufs idx)
  let (mats2, matBuf') := updateMaterialCBs mats1 (s.matBufs idx)
  ({ currFrameResourceIndex := idx
     allRitems := items'
     materials := mats2
     waterIdx := s.waterIdx
     objBufs := Function.update s.objBufs idx objBuf'
     matBufs := Function.update s.matBufs idx matBuf' },
   { slot := idx
     waterDirtyPreDecrement := matDirtyAt mats1 s.waterIdx
     waterDirtyPostDecrement := matDirtyAt mats2 s.waterIdx
     waterWrote := decide (0 < matDirtyAt mats1 s.waterIdx) })

/-- A run of consecutive update phases over a list of frame delta
times. -/
def updateRun (dts : List ℚ) (s : UpdateState) : UpdateState × List UpdateTickTrace :=
  match dts with
  | [] => (s, [])
  | dt :: rest =>
    let (s', t) := updateTick dt s
    let (sF, ts) := updateRun rest s'
    (sF, t :: ts)

/-- How a single render item evolves in one pass of `UpdateObjectCBs`:
the dirty counter is decremented when positive, everything else is
unchanged. -/
def objItemStep (e : RenderItem) : RenderItem :=
  if 0 < e.NumFramesDirty then { e with NumFramesDirty := e.NumFramesDirty - 1 } else e

/-- How a single material evolves in one pass of `UpdateMaterialCBs`. -/
def matItemStep (m : Material) : Material :=
  if 0 < m.NumFramesDirty then { m with NumFramesDirty := m.NumFramesDirty - 1 } else m

theorem updateObjectCBs_fst (items : List RenderItem) (buf : UploadBuf ObjectConstants) :
    (updateObjectCBs items buf).1 = items.map objItemStep := by
  induction items generalizing buf with
  | nil => rfl
  | cons e rest ih =>
    simp only [updateObjectCBs, List.map_cons, ih]
    by_cases h : 0 < e.NumFramesDirty <;>
      simp [updateObjectCBsStep, objItemStep, h]

theorem updateMaterialCBs_fst (mats : List Material) (buf : UploadBuf MaterialConstants) :
    (updateMaterialCBs mats buf).1 = mats.map matItemStep := by
  induction mats generalizing buf with
  | nil => rfl
  | cons m rest ih =>
    simp only [updateMaterialCBs, List.map_cons, ih]
    by_cases h : 0 < m.NumFramesDirty <;>
      simp [updateMaterialCBsStep, matItemStep, h]

theorem updateObjectCBs_writes (items : List RenderItem)
    (buf : UploadBuf ObjectConstants) (j : Nat) :
    (updateObjectCBs items buf).2.writes j =
      buf.writes j +
        items.countP (fun e => decide (0 < e.NumFramesDirty ∧ e.ObjCBIndex = j)) := by
  induction items generalizing buf with
  | nil => simp [updateObjectCBs]
  | cons e rest ih =>
    simp only [updateObjectCBs, List.countP_cons, ih]
    by_cases h : 0 < e.NumFramesDirty
    · by_cases hj : e.ObjCBIndex = j
      · simp [updateObjectCBsStep, h, hj, UploadBuf.copyData]
        omega
      · simp [updateObjectCBsStep, h, hj, UploadBuf.copyData]
        omega
    · simp [updateObjectCBsStep, h]

theorem updateMaterialCBs_writes (mats : List Material)
    (buf : UploadBuf MaterialConstants) (j : Nat) :
    (updateMaterialCBs mats buf).2.writes j =
      buf.writes j +
        mats.countP (fun m => decide (0 < m.NumFramesDirty ∧ m.MatCBIndex = j)) := by
  induction mats generalizing buf with
  | nil => simp [updateMaterialCBs]
  | cons m rest ih =>
    simp only [updateMaterialCBs, List.countP_cons, ih]
    by_cases h : 0 < m.NumFramesDirty
    · by_cases hj : m.MatCBIndex = j
      · simp [updateMaterialCBsStep, h, hj, UploadBuf.copyData]
        omega
      · simp [updateMaterialCBsStep, h, hj, UploadBuf.copyData]
        omega
    · simp [updateMaterialCBsStep, h]

theorem modifyAt_length {α : Type} (f : α → α) (w : Nat) (l : List α) :
    (modifyAt f w l).length = l.length := by
  induction l generalizing w with
  | nil => cases w <;> rfl
  | cons a l ih => cases w <;> simp [modifyAt, ih]

theorem modifyAt_getElem?_ne {α : Type} (f : α → α) (w q : Nat) (l : List α)
    (h : q ≠ w) : (modifyAt f w l)[q]? = l[q]? := by
  induction l generalizing w q with
  | nil => cases w <;> rfl
  | cons a l ih =>
    cases w with
    | zero =>
      cases q with
      | zero => exact absurd rfl h
      | succ q => simp [modifyAt]
    | succ w =>
      cases q with
      | zero => simp [modifyAt]
      | succ q => simpa [modifyAt] using ih w q (fun hq => h (by omega))

theorem modifyAt_getElem?_self {α : Type} (f : α → α) (w : Nat) (l : List α) :
    (modifyAt f w l)[w]? = (l[w]?).map f := by
  induction l generalizing w with
  | nil => cases w <;> rfl
  | cons a l ih => cases w with
    | zero => simp [modifyAt]
    | succ w => simpa [modifyAt] using ih w

theorem getElem?_some_lt_length {α : Type} {l : List α} {i : Nat} {a : α}
    (h : l[i]? = some a) : i < l.length := by
  by_contra hc
  rw [List.getElem?_eq_none (by omega)] at h
  exact Option.noConfusion h

/-- In a list whose image under `f` has no duplicates, any element with
the same `f`-value as the element stored at position `k` is that
element. -/
theorem eq_of_map_nodup {α β : Type} (l : List α) (f : α → β) (k : Nat) (x : α)
    (hk : l[k]? = some x) (hnd : (l.map f).Nodup) :
    ∀ y ∈ l, f y = f x → y = x := by
  intro y hy hfy
  obtain ⟨i, hi⟩ := List.mem_iff_getElem?.mp hy
  have hik : i = k := by
    have h1 : (l.map f)[i]? = some (f x) := by
      rw [List.getElem?_map f l i, hi]
      exact congrArg some hfy
    have h2 : (l.map f)[k]? = some (f x) := by
      rw [List.getElem?_map f l k, hk]
      rfl
    have hlt : i < (l.map f).length := by
      have := getElem?_some_lt_length h1
      simpa using this
    exact List.getElem?_inj hlt hnd (h1.trans h2.symm)
  subst hik
  rw [hi] at hk
  exact Option.some.inj hk

theorem count_le_one_of_nodup {α : Type} [DecidableEq α] {l : List α}
    (hnd : l.Nodup) (a : α) : l.count a ≤ 1 :=
  List.nodup_iff_count_le_one.mp hnd a

/-- A predicate that holds only for index-`j` entries is satisfied
exactly once when the indices are duplicate-free and the entry at `k`
satisfies it. -/
theorem countP_eq_one_of_unique {α : Type} (l : List α) (f : α → Nat) (j : Nat)
    (p : α → Bool) (hpj : ∀ x ∈ l, p x → f x = j)
    (k : Nat) (x : α) (hk : l[k]? = some x) (hpx : p x)
    (hnd : (l.map f).Nodup) : l.countP p = 1 := by
  have h1 : l.countP p ≤ l.countP (fun y => f y == j) := by
    refine List.countP_mono_left fun y hy hpy => ?_
    simpa using hpj y hy hpy
  have h2 : (l.map f).count j ≤ 1 := count_le_one_of_nodup hnd j
  have h3 : (l.map f).count j = l.countP (fun y => f y == j) := by
    show (l.map f).countP (fun y => y == j) = _
    rw [List.countP_map]
    rfl
  have hge : 0 < l.countP p := by
    rw [List.countP_pos_iff]
    exact ⟨x, List.mem_iff_getElem?.mpr ⟨k, hk⟩, hpx⟩
  omega
theorem updateObjectCBs_data_unchanged (items : List RenderItem)
    (buf : UploadBuf ObjectConstants) (j : Nat)
    (h : ∀ x ∈ items, ¬(0 < x.NumFramesDirty ∧ x.ObjCBIndex = j)) :
    (updateObjectCBs items buf).2.data j = buf.data j := by
  induction items generalizing buf with
  | nil => rfl
  | cons e rest ih =>
    have he := h e (List.mem_cons_self e rest)
    have hrest : ∀ x ∈ rest, ¬(0 < x.NumFramesDirty ∧ x.ObjCBIndex = j) :=
      fun x hx => h x (List.mem_cons_of_mem e hx)
    by_cases hd : 0 < e.NumFramesDirty
    · have hj : e.ObjCBIndex ≠ j := fun hj => he ⟨hd, hj⟩
      simp only [updateObjectCBs, updateObjectCBsStep, if_pos hd]
      rw [ih _ hrest]
      simp [UploadBuf.copyData, Function.update, hj.symm]
    · simp only [updateObjectCBs, updateObjectCBsStep, if_neg hd]
      exact ih _ hrest

theorem updateObjectCBs_data_write (items : List RenderItem)
    (buf : UploadBuf ObjectConstants) (j : Nat) (v : ObjectConstants)
    (hall : ∀ x ∈ items, 0 < x.NumFramesDirty → x.ObjCBIndex = j → objectConstantsOf x = v)
    (hex : ∃ x ∈ items, 0 < x.NumFramesDirty ∧ x.ObjCBIndex = j) :
    (updateObjectCBs items buf).2.data j = some v := by
  induction items generalizing buf with
  | nil => simp at hex
  | cons e rest ih =>
    have hallrest : ∀ x ∈ rest, 0 < x.NumFramesDirty → x.ObjCBIndex = j →
        objectConstantsOf x = v := fun x hx => hall x (List.mem_cons_of_mem e hx)
    by_cases hwrite : 0 < e.NumFramesDirty ∧ e.ObjCBIndex = j
    · simp only [updateObjectCBs, updateObjectCBsStep, if_pos hwrite.1]
      by_cases hrest : ∃ x ∈ rest, 0 < x.NumFramesDirty ∧ x.ObjCBIndex = j
      · exact ih _ hallrest hrest
      · rw [updateObjectCBs_data_unchanged rest _ j
          (fun x hx hc => hrest ⟨x, hx, hc⟩)]
        have := hall e (List.mem_cons_self e rest) hwrite.1 hwrite.2
        simp [UploadBuf.copyData, Function.update, hwrite.2, this]
    · have hrest : ∃ x ∈ rest, 0 < x.NumFramesDirty ∧ x.ObjCBIndex = j := by
        obtain ⟨x, hx, hc⟩ := hex
        rcases List.mem_cons.mp hx with h | h
        · subst h; exact absurd hc hwrite
        · exact ⟨x, h, hc⟩
      by_cases hd : 0 < e.NumFramesDirty
      · simp only [updateObjectCBs, updateObjectCBsStep, if_pos hd]
        exact ih _ hallrest hrest
      · simp only [updateObjectCBs, updateObjectCBsStep, if_neg hd]
        exact ih _ hallrest hrest

theorem updateMaterialCBs_data_unchanged (mats : List Material)
    (buf : UploadBuf MaterialConstants) (j : Nat)
    (h : ∀ x ∈ mats, ¬(0 < x.NumFramesDirty ∧ x.MatCBIndex = j)) :
    (updateMaterialCBs mats buf).2.data j = buf.data j := by
  induction mats generalizing buf with
  | nil => rfl
  | cons m rest ih =>
    have hm := h m (List.mem_cons_self m rest)
    have hrest : ∀ x ∈ rest, ¬(0 < x.NumFramesDirty ∧ x.MatCBIndex = j) :=
      fun x hx => h x (List.mem_cons_of_mem m hx)
    by_cases hd : 0 < m.NumFramesDirty
    · have hj : m.MatCBIndex ≠ j := fun hj => hm ⟨hd, hj⟩
      simp only [updateMaterialCBs, updateMaterialCBsStep, if_pos hd]
      rw [ih _ hrest]
      simp [UploadBuf.copyData, Function.update, hj.symm]
    · simp only [updateMaterialCBs, updateMaterialCBsStep, if_neg hd]
      exact ih _ hrest

theorem updateMaterialCBs_data_write (mats : List Material)
    (buf : UploadBuf MaterialConstants) (j : Nat) (v : MaterialConstants)
    (hall : ∀ x ∈ mats, 0 < x.NumFramesDirty → x.MatCBIndex = j → materialConstantsOf x = v)
    (hex : ∃ x ∈ mats, 0 < x.NumFramesDirty ∧ x.MatCBIndex = j) :
    (updateMaterialCBs mats buf).2.data j = some v := by
  induction mats generalizing buf with
  | nil => simp at hex
  | cons m rest ih =>
    have hallrest : ∀ x ∈ rest, 0 < x.NumFramesDirty → x.MatCBIndex = j →
        materialConstantsOf x = v := fun x hx => hall x (List.mem_cons_of_mem m hx)
    by_cases hwrite : 0 < m.NumFramesDirty ∧ m.MatCBIndex = j
    · simp only [updateMaterialCBs, updateMaterialCBsStep, if_pos hwrite.1]
      by_cases hrest : ∃ x ∈ rest, 0 < x.NumFramesDirty ∧ x.MatCBIndex = j
      · exact ih _ hallrest hrest
      · rw [updateMaterialCBs_data_unchanged rest _ j
          (fun x hx hc => hrest ⟨x, hx, hc⟩)]
        have := hall m (List.mem_cons_self m rest) hwrite.1 hwrite.2
        simp [UploadBuf.copyData, Function.update, hwrite.2, this]
    · have hrest : ∃ x ∈ rest, 0 < x.NumFramesDirty ∧ x.MatCBIndex = j := by
        obtain ⟨x, hx, hc⟩ := hex
        rcases List.mem_cons.mp hx with h | h
        · subst h; exact absurd hc hwrite
        · exact ⟨x, h, hc⟩
      by_cases hd : 0 < m.NumFramesDirty
      · simp only [updateMaterialCBs, updateMaterialCBsStep, if_pos hd]
        exact ih _ hallrest hrest
      · simp only [updateMaterialCBs, updateMaterialCBsStep, if_neg hd]
        exact ih _ hallrest hrest

theorem objItemStep_objCBIndex (e : RenderItem) :
    (objItemStep e).ObjCBIndex = e.ObjCBIndex := by
  unfold objItemStep; split <;> rfl

theorem objItemStep_constants (e : RenderItem) :
    objectConstantsOf (objItemStep e) = objectConstantsOf e := by
  unfold objItemStep; split <;> rfl

theorem objItemStep_dirty (e : RenderItem) :
    (objItemStep e).NumFramesDirty =
      (if 0 < e.NumFramesDirty then e.NumFramesDirty - 1 else e.NumFramesDirty) := by
  unfold objItemStep; split <;> rfl

theorem matItemStep_matCBIndex (m : Material) :
    (matItemStep m).MatCBIndex = m.MatCBIndex := by
  unfold matItemStep; split <;> rfl

theorem matItemStep_constants (m : Material) :
    materialConstantsOf (matItemStep m) = materialConstantsOf m := by
  unfold matItemStep; split <;> rfl

theorem matItemStep_dirty (m : Material) :
    (matItemStep m).NumFramesDirty =
      (if 0 < m.NumFramesDirty then m.NumFramesDirty - 1 else m.NumFramesDirty) := by
  unfold matItemStep; split <;> rfl

theorem animateWaterMaterial_matCBIndex (dt : ℚ) (m : Material) :
    (animateWaterMaterial dt m).MatCBIndex = m.MatCBIndex := rfl

theorem map_modifyAt_of_preserve {α β : Type} (f : α → β) (g : α → α)
    (h : ∀ y, f (g y) = f y) (w : Nat) (l : List α) :
    (modifyAt g w l).map f = l.map f := by
  induction l generalizing w with
  | nil => cases w <;> rfl
  | cons a l ih => cases w with
    | zero => simp [modifyAt, h a]
    | succ w => simp [modifyAt, ih w]

theorem map_objCBIndex_map_step (l : List RenderItem) :
    (l.map objItemStep).map RenderItem.ObjCBIndex = l.map RenderItem.ObjCBIndex := by
  rw [List.map_map]
  exact List.map_congr_left fun e _ => objItemStep_objCBIndex e

theorem map_matCBIndex_map_step (l : List Material) :
    (l.map matItemStep).map Material.MatCBIndex = l.map Material.MatCBIndex := by
  rw [List.map_map]
  exact List.map_congr_left fun m _ => matItemStep_matCBIndex m

theorem updateTick_allRitems (dt : ℚ) (s : UpdateState) :
    (updateTick dt s).1.allRitems = s.allRitems.map objItemStep :=
  updateObjectCBs_fst _ _

theorem updateTick_materials (dt : ℚ) (s : UpdateState) :
    (updateTick dt s).1.materials =
      (modifyAt (animateWaterMaterial dt) s.waterIdx s.materials).map matItemStep :=
  updateMaterialCBs_fst _ _

theorem updateTick_waterIdx (dt : ℚ) (s : UpdateState) :
    (updateTick dt s).1.waterIdx = s.waterIdx := rfl

theorem updateTick_currIndex (dt : ℚ) (s : UpdateState) :
    (updateTick dt s).1.currFrameResourceIndex =
      (s.currFrameResourceIndex + 1) % gNumFrameResources := rfl

theorem updateTick_objBufs (dt : ℚ) (s : UpdateState) :
    (updateTick dt s).1.objBufs =
      Function.update s.objBufs ((s.currFrameResourceIndex + 1) % gNumFrameResources)
        (updateObjectCBs s.allRitems
          (s.objBufs ((s.currFrameResourceIndex + 1) % gNumFrameResources))).2 := rfl

theorem updateTick_matBufs (dt : ℚ) (s : UpdateState) :
    (updateTick dt s).1.matBufs =
      Function.update s.matBufs ((s.currFrameResourceIndex + 1) % gNumFrameResources)
        (updateMaterialCBs
          (modifyAt (animateWaterMaterial dt) s.waterIdx s.materials)
          (s.matBufs ((s.currFrameResourceIndex + 1) % gNumFrameResources))).2 := rfl

/-- All entries with the tracked constant-buffer index are the tracked
entry itself (index lists are duplicate-free). -/
theorem obj_tracked_unique (items : List RenderItem) (p : Nat) (e : RenderItem)
    (hp : items[p]? = some e)
    (hnd : (items.map RenderItem.ObjCBIndex).Nodup) :
    ∀ x ∈ items, x.ObjCBIndex = e.ObjCBIndex → x = e :=
  eq_of_map_nodup items RenderItem.ObjCBIndex p e hp hnd

theorem tick_obj_writes (dt : ℚ) (s : UpdateState) (p : Nat) (e : RenderItem)
    (hp : s.allRitems[p]? = some e)
    (hnd : (s.allRitems.map RenderItem.ObjCBIndex).Nodup) (t : Nat) :
    ((updateTick dt s).1.objBufs t).writes e.ObjCBIndex =
      (s.objBufs t).writes e.ObjCBIndex +
        (if t = (s.currFrameResourceIndex + 1) % gNumFrameResources ∧ 0 < e.NumFramesDirty
          then 1 else 0) := by
  rw [updateTick_objBufs]
  by_cases ht : t = (s.currFrameResourceIndex + 1) % gNumFrameResources
  · subst ht
    rw [Function.update_same, updateObjectCBs_writes]
    by_cases hd : 0 < e.NumFramesDirty
    · rw [countP_eq_one_of_unique s.allRitems RenderItem.ObjCBIndex e.ObjCBIndex _
        (fun x _ hx => by simpa using (of_decide_eq_true hx).2) p e hp
        (by simp [hd]) hnd]
      simp [hd]
    · have hzero : s.allRitems.countP
          (fun x => decide (0 < x.NumFramesDirty ∧ x.ObjCBIndex = e.ObjCBIndex)) = 0 := by
        rw [List.countP_eq_zero]
        intro x hx hc
        have hc' := of_decide_eq_true hc
        have := obj_tracked_unique s.allRitems p e hp hnd x hx hc'.2
        subst this
        exact hd hc'.1
      rw [hzero]
      simp [hd]
  · rw [Function.update_noteq ht]
    simp [ht]

theorem tick_obj_data_write (dt : ℚ) (s : UpdateState) (p : Nat) (e : RenderItem)
    (hp : s.allRitems[p]? = some e)
    (hnd : (s.allRitems.map RenderItem.ObjCBIndex).Nodup)
    (hd : 0 < e.NumFramesDirty) :
    ((updateTick dt s).1.objBufs
        ((s.currFrameResourceIndex + 1) % gNumFrameResources)).data e.ObjCBIndex =
      some (objectConstantsOf e) := by
  rw [updateTick_objBufs, Function.update_same]
  refine updateObjectCBs_data_write _ _ _ _ ?_ ?_
  · intro x hx _ hidx
    rw [obj_tracked_unique s.allRitems p e hp hnd x hx hidx]
  · exact ⟨e, List.mem_iff_getElem?.mpr ⟨p, hp⟩, hd, rfl⟩

theorem tick_obj_bufs_other (dt : ℚ) (s : UpdateState) (t : Nat)
    (ht : t ≠ (s.currFrameResourceIndex + 1) % gNumFrameResources) :
    (updateTick dt s).1.objBufs t = s.objBufs t := by
  rw [updateTick_objBufs, Function.update_noteq ht]

theorem tick_obj_tracked (dt : ℚ) (s : UpdateState) (p : Nat) (e : RenderItem)
    (hp : s.allRitems[p]? = some e) :
    (updateTick dt s).1.allRitems[p]? = some (objItemStep e) := by
  rw [updateTick_allRitems, List.getElem?_map, hp]
  rfl

theorem tick_obj_nodup (dt : ℚ) (s : UpdateState)
    (hnd : (s.allRitems.map RenderItem.ObjCBIndex).Nodup) :
    ((updateTick dt s).1.allRitems.map RenderItem.ObjCBIndex).Nodup := by
  rw [updateTick_allRitems, map_objCBIndex_map_step]
  exact hnd

/-- Once every item carrying the tracked index has a non-positive dirty
counter, no later run of update phases writes that index again, in any
slot. -/
theorem run_obj_no_writes (dts : List ℚ) (s : UpdateState) (p : Nat) (e : RenderItem)
    (hp : s.allRitems[p]? = some e)
    (hnd : (s.allRitems.map RenderItem.ObjCBIndex).Nodup)
    (hd : e.NumFramesDirty ≤ 0) :
    ∀ t, ((updateRun dts s).1.objBufs t).writes e.ObjCBIndex =
      (s.objBufs t).writes e.ObjCBIndex := by
  induction dts generalizing s e with
  | nil => intro t; rfl
  | cons dt rest ih =>
    intro t
    have hstep : objItemStep e = e := by
      unfold objItemStep
      rw [if_neg (by omega)]
    have h1 : (updateRun (dt :: rest) s).1 = (updateRun rest (updateTick dt s).1).1 := rfl
    rw [h1]
    have htr := tick_obj_tracked dt s p e hp
    rw [hstep] at htr
    have := ih (updateTick dt s).1 e htr (tick_obj_nodup dt s hnd) hd t
    rw [this, tick_obj_writes dt s p e hp hnd t]
    simp [Int.not_lt.mpr hd]

theorem mats1_tracked (dt : ℚ) (s : UpdateState) (q : Nat) (mM : Material)
    (hq : s.materials[q]? = some mM) (hqw : q ≠ s.waterIdx) :
    (modifyAt (animateWaterMaterial dt) s.waterIdx s.materials)[q]? = some mM := by
  rw [modifyAt_getElem?_ne _ _ _ _ hqw, hq]

theorem mats1_nodup (dt : ℚ) (s : UpdateState)
    (hnd : (s.materials.map Material.MatCBIndex).Nodup) :
    ((modifyAt (animateWaterMaterial dt) s.waterIdx s.materials).map
      Material.MatCBIndex).Nodup := by
  rw [map_modifyAt_of_preserve Material.MatCBIndex (animateWaterMaterial dt)
    (fun y => rfl) s.waterIdx s.materials]
  exact hnd

theorem tick_mat_tracked (dt : ℚ) (s : UpdateState) (q : Nat) (mM : Material)
    (hq : s.materials[q]? = some mM) (hqw : q ≠ s.waterIdx) :
    (updateTick dt s).1.materials[q]? = some (matItemStep mM) := by
  rw [updateTick_materials, List.getElem?_map, mats1_tracked dt s q mM hq hqw]
  rfl

theorem tick_mat_nodup (dt : ℚ) (s : UpdateState)
    (hnd : (s.materials.map Material.MatCBIndex).Nodup) :
    ((updateTick dt s).1.materials.map Material.MatCBIndex).Nodup := by
  rw [updateTick_materials, map_matCBIndex_map_step]
  exact mats1_nodup dt s hnd

theorem tick_mat_writes (dt : ℚ) (s : UpdateState) (q : Nat) (mM : Material)
    (hq : s.materials[q]? = some mM) (hqw : q ≠ s.waterIdx)
    (hnd : (s.materials.map Material.MatCBIndex).Nodup) (t : Nat) :
    ((updateTick dt s).1.matBufs t).writes mM.MatCBIndex =
      (s.matBufs t).writes mM.MatCBIndex +
        (if t = (s.currFrameResourceIndex + 1) % gNumFrameResources ∧ 0 < mM.NumFramesDirty
          then 1 else 0) := by
  have hq1 := mats1_tracked dt s q mM hq hqw
  have hnd1 := mats1_nodup dt s hnd
  rw [updateTick_matBufs]
  by_cases ht : t = (s.currFrameResourceIndex + 1) % gNumFrameResources
  · subst ht
    rw [Function.update_same, updateMaterialCBs_writes]
    by_cases hd : 0 < mM.NumFramesDirty
    · rw [countP_eq_one_of_unique _ Material.MatCBIndex mM.MatCBIndex _
        (fun x _ hx => by simpa using (of_decide_eq_true hx).2) q mM hq1
        (by simp [hd]) hnd1]
      simp [hd]
    · have hzero : (modifyAt (animateWaterMaterial dt) s.waterIdx s.materials).countP
          (fun x => decide (0 < x.NumFramesDirty ∧ x.MatCBIndex = mM.MatCBIndex)) = 0 := by
        rw [List.countP_eq_zero]
        intro x hx hc
        have hc' := of_decide_eq_true hc
        have := eq_of_map_nodup _ Material.MatCBIndex q mM hq1 hnd1 x hx hc'.2
        subst this
        exact hd hc'.1
      rw [hzero]
      simp [hd]
  · rw [Function.update_noteq ht]
    simp [ht]

theorem tick_mat_data_write (dt : ℚ) (s : UpdateState) (q : Nat) (mM : Material)
    (hq : s.materials[q]? = some mM) (hqw : q ≠ s.waterIdx)
    (hnd : (s.materials.map Material.MatCBIndex).Nodup)
    (hd : 0 < mM.NumFramesDirty) :
    ((updateTick dt s).1.matBufs
        ((s.currFrameResourceIndex + 1) % gNumFrameResources)).data mM.MatCBIndex =
      some (materialConstantsOf mM) := by
  have hq1 := mats1_tracked dt s q mM hq hqw
  have hnd1 := mats1_nodup dt s hnd
  rw [updateTick_matBufs, Function.update_same]
  refine updateMaterialCBs_data_write _ _ _ _ ?_ ?_
  · intro x hx _ hidx
    rw [eq_of_map_nodup _ Material.MatCBIndex q mM hq1 hnd1 x hx hidx]
  · exact ⟨mM, List.mem_iff_getElem?.mpr ⟨q, hq1⟩, hd, rfl⟩

theorem tick_mat_bufs_other (dt : ℚ) (s : UpdateState) (t : Nat)
    (ht : t ≠ (s.currFrameResourceIndex + 1) % gNumFrameResources) :
    (updateTick dt s).1.matBufs t = s.matBufs t := by
  rw [updateTick_matBufs, Function.update_noteq ht]

theorem run_mat_no_writes (dts : List ℚ) (s : UpdateState) (q : Nat) (mM : Material)
    (hq : s.materials[q]? = some mM) (hqw : q ≠ s.waterIdx)
    (hnd : (s.materials.map Material.MatCBIndex).Nodup)
    (hd : mM.NumFramesDirty ≤ 0) :
    ∀ t, ((updateRun dts s).1.matBufs t).writes mM.MatCBIndex =
      (s.matBufs t).writes mM.MatCBIndex := by
  induction dts generalizing s mM with
  | nil => intro t; rfl
  | cons dt rest ih =>
    intro t
    have hstep : matItemStep mM = mM := by
      unfold matItemStep
      rw [if_neg (by omega)]
    have h1 : (updateRun (dt :: rest) s).1 = (updateRun rest (updateTick dt s).1).1 := rfl
    rw [h1]
    have htr := tick_mat_tracked dt s q mM hq hqw
    rw [hstep] at htr
    have hqw' : q ≠ (updateTick dt s).1.waterIdx := by
      rw [updateTick_waterIdx]; exact hqw
    have := ih (updateTick dt s).1 mM htr hqw' (tick_mat_nodup dt s hnd) hd t
    rw [this, tick_mat_writes dt s q mM hq hqw hnd t]
    simp [Int.not_lt.mpr hd]

/-- C3: Exactly-once dirty propagation.  For a render item and a
material (not the continuously re-armed water material) whose dirty
counters stand at 3 after a single edit, with no further edits, each of
the 3 frame-resource slots' constant upload buffers receives the
recomputed constant record exactly once (write count +1, stored record
as recomputed) over the next 3 consecutive ticks, at the entity's fixed
buffer index; afterwards the entity's dirty counter is 0 and no run of
further ticks writes that entity's index again. -/
theorem c3_exactly_once_dirty_propagation
    (s : UpdateState) (dts : List ℚ) (hlen : dts.length = 3)
    (p : Nat) (e : RenderItem)
    (hp : s.allRitems[p]? = some e)
    (hde : e.NumFramesDirty = 3)
    (hnde : (s.allRitems.map RenderItem.ObjCBIndex).Nodup)
    (q : Nat) (mM : Material)
    (hq : s.materials[q]? = some mM)
    (hqw : q ≠ s.waterIdx)
    (hdm : mM.NumFramesDirty = 3)
    (hndm : (s.materials.map Material.MatCBIndex).Nodup) :
    (∀ t < 3,
      ((updateRun dts s).1.objBufs t).writes e.ObjCBIndex =
        (s.objBufs t).writes e.ObjCBIndex + 1 ∧
      ((updateRun dts s).1.objBufs t).data e.ObjCBIndex =
        some (objectConstantsOf e) ∧
      ((updateRun dts s).1.matBufs t).writes mM.MatCBIndex =
        (s.matBufs t).writes mM.MatCBIndex + 1 ∧
      ((updateRun dts s).1.matBufs t).data mM.MatCBIndex =
        some (materialConstantsOf mM)) ∧
    (updateRun dts s).1.allRitems[p]? = some { e with NumFramesDirty := 0 } ∧
    (updateRun dts s).1.materials[q]? = some { mM with NumFramesDirty := 0 } ∧
    (∀ dts2 t,
      ((updateRun dts2 (updateRun dts s).1).1.objBufs t).writes e.ObjCBIndex =
        ((updateRun dts s).1.objBufs t).writes e.ObjCBIndex ∧
      ((updateRun dts2 (updateRun dts s).1).1.matBufs t).writes mM.MatCBIndex =
        ((updateRun dts s).1.matBufs t).writes mM.MatCBIndex) := by
  obtain ⟨d1, d2, d3, rfl⟩ := List.length_eq_three.mp hlen
  have hrun : (updateRun [d1, d2, d3] s).1 = (updateTick d3 (updateTick d2 (updateTick d1 s).1).1).1 := rfl
  -- abbreviations for the three intermediate states
  have hp1 := tick_obj_tracked d1 s p e hp
  have hnd1 := tick_obj_nodup d1 s hnde
  have hp2 := tick_obj_tracked d2 (updateTick d1 s).1 p _ hp1
  have hnd2 := tick_obj_nodup d2 (updateTick d1 s).1 hnd1
  have hp3 := tick_obj_tracked d3 (updateTick d2 (updateTick d1 s).1).1 p _ hp2
  have hnd3 := tick_obj_nodup d3 (updateTick d2 (updateTick d1 s).1).1 hnd2
  have hq1 := tick_mat_tracked d1 s q mM hq hqw
  have hqw1 : q ≠ (updateTick d1 s).1.waterIdx := by rw [updateTick_waterIdx]; exact hqw
  have hndm1 := tick_mat_nodup d1 s hndm
  have hq2 := tick_mat_tracked d2 (updateTick d1 s).1 q _ hq1 hqw1
  have hqw2 : q ≠ (updateTick d2 (updateTick d1 s).1).1.waterIdx := by
    rw [updateTick_waterIdx]; exact hqw1
  have hndm2 := tick_mat_nodup d2 (updateTick d1 s).1 hndm1
  have hq3 := tick_mat_tracked d3 (updateTick d2 (updateTick d1 s).1).1 q _ hq2 hqw2
  have hqw3 : q ≠ (updateTick d3 (updateTick d2 (updateTick d1 s).1).1).1.waterIdx := by
    rw [updateTick_waterIdx]; exact hqw2
  have hndm3 := tick_mat_nodup d3 (updateTick d2 (updateTick d1 s).1).1 hndm2
  -- dirty counters along the chain
  have hd1 : (objItemStep e).NumFramesDirty = 2 := by
    rw [objItemStep_dirty, hde]; norm_num
  have hd2 : (objItemStep (objItemStep e)).NumFramesDirty = 1 := by
    rw [objItemStep_dirty, hd1]; norm_num
  have hd3 : (objItemStep (objItemStep (objItemStep e))).NumFramesDirty = 0 := by
    rw [objItemStep_dirty, hd2]; norm_num
  have hmd1 : (matItemStep mM).NumFramesDirty = 2 := by
    rw [matItemStep_dirty, hdm]; norm_num
  have hmd2 : (matItemStep (matItemStep mM)).NumFramesDirty = 1 := by
    rw [matItemStep_dirty, hmd1]; norm_num
  have hmd3 : (matItemStep (matItemStep (matItemStep mM))).NumFramesDirty = 0 := by
    rw [matItemStep_dirty, hmd2]; norm_num
  -- buffer indices along the chain
  have hidx1 : (objItemStep e).ObjCBIndex = e.ObjCBIndex := objItemStep_objCBIndex e
  have hidx2 : (objItemStep (objItemStep e)).ObjCBIndex = e.ObjCBIndex := by
    rw [objItemStep_objCBIndex, hidx1]
  have hidx3 : (objItemStep (objItemStep (objItemStep e))).ObjCBIndex = e.ObjCBIndex := by
    rw [objItemStep_objCBIndex, hidx2]
  have hmidx1 : (matItemStep mM).MatCBIndex = mM.MatCBIndex := matItemStep_matCBIndex mM
  have hmidx2 : (matItemStep (matItemStep mM)).MatCBIndex = mM.MatCBIndex := by
    rw [matItemStep_matCBIndex, hmidx1]
  have hmidx3 : (matItemStep (matItemStep (matItemStep mM))).MatCBIndex = mM.MatCBIndex := by
    rw [matItemStep_matCBIndex, hmidx2]
  -- recomputed records along the chain
  have hc1 : objectConstantsOf (objItemStep e) = objectConstantsOf e :=
    objItemStep_constants e
  have hc2 : objectConstantsOf (objItemStep (objItemStep e)) = objectConstantsOf e := by
    rw [objItemStep_constants, hc1]
  have hmc1 : materialConstantsOf (matItemStep mM) = materialConstantsOf mM :=
    matItemStep_constants mM
  have hmc2 : materialConstantsOf (matItemStep (matItemStep mM)) = materialConstantsOf mM := by
    rw [matItemStep_constants, hmc1]
  -- ring index along the chain
  have hi1 : (updateTick d1 s).1.currFrameResourceIndex =
      (s.currFrameResourceIndex + 1) % gNumFrameResources := rfl
  have hi2 : (updateTick d2 (updateTick d1 s).1).1.currFrameResourceIndex =
      ((s.currFrameResourceIndex + 1) % gNumFrameResources + 1) % gNumFrameResources := by
    rw [updateTick_currIndex, hi1]
  refine ⟨?_, ?_, ?_, ?_⟩
  · -- per-slot write counts and stored records over the three ticks
    intro t ht
    have hw1 := tick_obj_writes d1 s p e hp hnde t
    have hw2 := tick_obj_writes d2 (updateTick d1 s).1 p _ hp1 hnd1 t
    have hw3 := tick_obj_writes d3 (updateTick d2 (updateTick d1 s).1).1 p _ hp2 hnd2 t
    rw [hidx1, hd1, hi1] at hw2
    rw [hidx2, hd2, hi2] at hw3
    have hmw1 := tick_mat_writes d1 s q mM hq hqw hndm t
    have hmw2 := tick_mat_writes d2 (updateTick d1 s).1 q _ hq1 hqw1 hndm1 t
    have hmw3 := tick_mat_writes d3 (updateTick d2 (updateTick d1 s).1).1 q _ hq2 hqw2 hndm2 t
    rw [hmidx1, hmd1, hi1] at hmw2
    rw [hmidx2, hmd2, hi2] at hmw3
    refine ⟨?_, ?_, ?_, ?_⟩
    · rw [hrun, hw3, hw2, hw1]
      simp only [gNumFrameResources, hde] at *
      split_ifs <;> omega
    · -- stored object record: case on which tick wrote slot t
      rw [hrun]
      by_cases h3t : t = ((updateTick d2 (updateTick d1 s).1).1.currFrameResourceIndex + 1) %
          gNumFrameResources
      · subst h3t
        have := tick_obj_data_write d3 (updateTick d2 (updateTick d1 s).1).1 p _ hp2 hnd2
          (by rw [hd2]; norm_num)
        rw [hidx2, hc2] at this
        exact this
      · rw [show (updateTick d3 (updateTick d2 (updateTick d1 s).1).1).1.objBufs t =
            (updateTick d2 (updateTick d1 s).1).1.objBufs t from
          tick_obj_bufs_other d3 _ t h3t]
        by_cases h2t : t = ((updateTick d1 s).1.currFrameResourceIndex + 1) %
            gNumFrameResources
        · subst h2t
          have := tick_obj_data_write d2 (updateTick d1 s).1 p _ hp1 hnd1
            (by rw [hd1]; norm_num)
          rw [hidx1, hc1] at this
          exact this
        · rw [show (updateTick d2 (updateTick d1 s).1).1.objBufs t =
              (updateTick d1 s).1.objBufs t from tick_obj_bufs_other d2 _ t h2t]
          by_cases h1t : t = (s.currFrameResourceIndex + 1) % gNumFrameResources
          · subst h1t
            exact tick_obj_data_write d1 s p e hp hnde (by rw [hde]; norm_num)
          · exfalso
            rw [updateTick_currIndex, hi1] at h3t
            rw [hi1] at h2t
            simp only [gNumFrameResources] at h1t h2t h3t ht
            omega
    · rw [hrun, hmw3, hmw2, hmw1]
      simp only [gNumFrameResources, hdm] at *
      split_ifs <;> omega
    · -- stored material record
      rw [hrun]
      by_cases h3t : t = ((updateTick d2 (updateTick d1 s).1).1.currFrameResourceIndex + 1) %
          gNumFrameResources
      · subst h3t
        have := tick_mat_data_write d3 (updateTick d2 (updateTick d1 s).1).1 q _ hq2 hqw2 hndm2
          (by rw [hmd2]; norm_num)
        rw [hmidx2, hmc2] at this
        exact this
      · rw [show (updateTick d3 (updateTick d2 (updateTick d1 s).1).1).1.matBufs t =
            (updateTick d2 (updateTick d1 s).1).1.matBufs t from
          tick_mat_bufs_other d3 _ t h3t]
        by_cases h2t : t = ((updateTick d1 s).1.currFrameResourceIndex + 1) %
            gNumFrameResources
        · subst h2t
          have := tick_mat_data_write d2 (updateTick d1 s).1 q _ hq1 hqw1 hndm1
            (by rw [hmd1]; norm_num)
          rw [hmidx1, hmc1] at this
          exact this
        · rw [show (updateTick d2 (updateTick d1 s).1).1.matBufs t =
              (updateTick d1 s).1.matBufs t from tick_mat_bufs_other d2 _ t h2t]
          by_cases h1t : t = (s.currFrameResourceIndex + 1) % gNumFrameResources
          · subst h1t
            exact tick_mat_data_write d1 s q mM hq hqw hndm (by rw [hdm]; norm_num)
          · exfalso
            rw [updateTick_currIndex, hi1] at h3t
            rw [hi1] at h2t
            simp only [gNumFrameResources] at h1t h2t h3t ht
            omega
  · -- tracked item after three ticks: dirty counter 0, other fields intact
    rw [hrun, hp3]
    congr 1
    have : objItemStep (objItemStep (objItemStep e)) =
        { e with NumFramesDirty := 0 } := by
      simp only [objItemStep, hde]
      norm_num
    exact this
  · rw [hrun, hq3]
    congr 1
    have : matItemStep (matItemStep (matItemStep mM)) =
        { mM with NumFramesDirty := 0 } := by
      simp only [matItemStep, hdm]
      norm_num
    exact this
  · -- no further writes once the counter has drained
    intro dts2 t
    constructor
    · have := run_obj_no_writes dts2 (updateRun [d1, d2, d3] s).1 p _
        (by rw [hrun]; exact hp3) (by rw [hrun]; exact hnd3) (by rw [hd3]) t
      rw [hidx3] at this
      exact this
    · have := run_mat_no_writes dts2 (updateRun [d1, d2, d3] s).1 q _
        (by rw [hrun]; exact hq3) (by rw [hrun, updateTick_waterIdx]; exact hqw2)
        (by rw [hrun]; exact hndm3) (by rw [hmd3]) t
      rw [hmidx3] at this
      exact this

/-- Concrete render item used to witness C3. -/
def c3WitItem : RenderItem :=
  { World := 1, TexTransform := 1, NumFramesDirty := 3, ObjCBIndex := 0 }

/-- Concrete water material used to witness C3 (held at position 0 of
the material list). -/
def c3WitWater : Material :=
  { Name := "water", MatCBIndex := 1, DiffuseSrvHeapIndex := 1,
    DiffuseAlbedo := ⟨1, 1, 1, 1 / 2⟩, FresnelR0 := ⟨1 / 10, 1 / 10, 1 / 10⟩,
    Roughness := 0, MatTransform := 1, NumFramesDirty := 3 }

/-- Concrete tracked material used to witness C3. -/
def c3WitMat : Material :=
  { Name := "grass", MatCBIndex := 0, DiffuseSrvHeapIndex := 0,
    DiffuseAlbedo := ⟨1, 1, 1, 1⟩, FresnelR0 := ⟨1 / 100, 1 / 100, 1 / 100⟩,
    Roughness := 1 / 8, MatTransform := 1, NumFramesDirty := 3 }

/-- Concrete update-phase state used to witness C3. -/
def c3WitState : UpdateState :=
  { currFrameResourceIndex := 0
    allRitems := [c3WitItem]
    materials := [c3WitWater, c3WitMat]
    waterIdx := 0
    objBufs := fun _ => UploadBuf.empty ObjectConstants
    matBufs := fun _ => UploadBuf.empty MaterialConstants }

/-- Witness for C3: one render item with dirty counter 3 and one
non-water material with dirty counter 3, run for three ticks. -/
theorem c3_witness :
    (∀ t < 3,
      ((updateRun [1, 1, 1] c3WitState).1.objBufs t).writes c3WitItem.ObjCBIndex =
        (c3WitState.objBufs t).writes c3WitItem.ObjCBIndex + 1 ∧
      ((updateRun [1, 1, 1] c3WitState).1.objBufs t).data c3WitItem.ObjCBIndex =
        some (objectConstantsOf c3WitItem) ∧
      ((updateRun [1, 1, 1] c3WitState).1.matBufs t).writes c3WitMat.MatCBIndex =
        (c3WitState.matBufs t).writes c3WitMat.MatCBIndex + 1 ∧
      ((updateRun [1, 1, 1] c3WitState).1.matBufs t).data c3WitMat.MatCBIndex =
        some (materialConstantsOf c3WitMat)) ∧
    (updateRun [1, 1, 1] c3WitState).1.allRitems[0]? =
      some { c3WitItem with NumFramesDirty := 0 } ∧
    (updateRun [1, 1, 1] c3WitState).1.materials[1]? =
      some { c3WitMat with NumFramesDirty := 0 } ∧
    (∀ dts2 t,
      ((updateRun dts2 (updateRun [1, 1, 1] c3WitState).1).1.objBufs t).writes
          c3WitItem.ObjCBIndex =
        ((updateRun [1, 1, 1] c3WitState).1.objBufs t).writes c3WitItem.ObjCBIndex ∧
      ((updateRun dts2 (updateRun [1, 1, 1] c3WitState).1).1.matBufs t).writes
          c3WitMat.MatCBIndex =
        ((updateRun [1, 1, 1] c3WitState).1.matBufs t).writes c3WitMat.MatCBIndex) :=
  c3_exactly_once_dirty_propagation c3WitState [1, 1, 1] rfl 0 c3WitItem rfl rfl
    (by decide) 1 c3WitMat rfl (by decide) rfl (by decide)

/-! ## The material table

`TreeBillboardsApp::BuildMaterials` (lines 1627-1748): twelve materials,
`MatCBIndex` and `DiffuseSrvHeapIndex` assigned from counters that are
incremented once per material, values copied from the source.  All dirty
counters start at `gNumFrameResources` (the `Material` declaration's
default).  The list is in construction order, with "water" at
position 2. -/
def buildMaterials : List Material :=
  [ { Name := "grass", MatCBIndex := 0, DiffuseSrvHeapIndex := 0,
      DiffuseAlbedo := ⟨1, 1, 1, 1⟩, FresnelR0 := ⟨1 / 100, 1 / 100, 1 / 100⟩,
      Roughness := 1 / 8, MatTransform := 1, NumFramesDirty := 3 },
    { Name := "grass", MatCBIndex := 1, DiffuseSrvHeapIndex := 1,
      DiffuseAlbedo := ⟨1, 1, 1, 1⟩, FresnelR0 := ⟨1 / 100, 1 / 100, 1 / 100⟩,
      Roughness := 1 / 8, MatTransform := 1, NumFramesDirty := 3 },
    { Name := "water", MatCBIndex := 2, DiffuseSrvHeapIndex := 2,
      DiffuseAlbedo := ⟨1, 1, 1, 1 / 2⟩, FresnelR0 := ⟨1 / 10, 1 / 10, 1 / 10⟩,
      Roughness := 0, MatTransform := 1, NumFramesDirty := 3 },
    { Name := "bricks", MatCBIndex := 3, DiffuseSrvHeapIndex := 3,
      DiffuseAlbedo := ⟨1, 1, 1, 1⟩, FresnelR0 := ⟨1 / 50, 1 / 50, 1 / 50⟩,
      Roughness := 1 / 4, MatTransform := 1, NumFramesDirty := 3 },
    { Name := "bricks2", MatCBIndex := 4, DiffuseSrvHeapIndex := 4,
      DiffuseAlbedo := ⟨1, 1, 1, 1⟩, FresnelR0 := ⟨1 / 50, 1 / 50, 1 / 50⟩,
      Roughness := 1 / 4, MatTransform := 1, NumFramesDirty := 3 },
    { Name := "bricks3", MatCBIndex := 5, DiffuseSrvHeapIndex := 5,
      DiffuseAlbedo := ⟨1, 1, 1, 1⟩, FresnelR0 := ⟨1 / 50, 1 / 50, 1 / 50⟩,
      Roughness := 1 / 4, MatTransform := 1, NumFramesDirty := 3 },
    { Name := "ice", MatCBIndex := 6, DiffuseSrvHeapIndex := 6,
      DiffuseAlbedo := ⟨1, 1, 1, 1 / 2⟩, FresnelR0 := ⟨1 / 10, 1 / 10, 1 / 10⟩,
      Roughness := 0, MatTransform := 1, NumFramesDirty := 3 },
    { Name := "tile", MatCBIndex := 7, DiffuseSrvHeapIndex := 7,
      DiffuseAlbedo := ⟨1, 1, 1, 1⟩, FresnelR0 := ⟨1 / 50, 1 / 50, 1 / 50⟩,
      Roughness := 1 / 4, MatTransform := 1, NumFramesDirty := 3 },
    { Name := "sand", MatCBIndex := 8, DiffuseSrvHeapIndex := 8,
      DiffuseAlbedo := ⟨1, 1, 1, 1⟩, FresnelR0 := ⟨1 / 50, 1 / 50, 1 / 50⟩,
      Roughness := 1 / 4, MatTransform := 1, NumFramesDirty := 3 },
    { Name := "checkboard", MatCBIndex := 9, DiffuseSrvHeapIndex := 9,
      DiffuseAlbedo := ⟨1, 1, 1, 1⟩, FresnelR0 := ⟨1 / 50, 1 / 50, 1 / 50⟩,
      Roughness := 1 / 4, MatTransform := 1, NumFramesDirty := 3 },
    { Name := "shiny", MatCBIndex := 10, DiffuseSrvHeapIndex := 10,
      DiffuseAlbedo := ⟨1, 1, 1, 1 / 2⟩, FresnelR0 := ⟨1 / 10, 1 / 10, 1 / 10⟩,
      Roughness := 0, MatTransform := 1, NumFramesDirty := 3 },
    { Name := "treeSprites", MatCBIndex := 11, DiffuseSrvHeapIndex := 11,
      DiffuseAlbedo := ⟨1, 1, 1, 1⟩, FresnelR0 := ⟨1 / 100, 1 / 100, 1 / 100⟩,
      Roughness := 1 / 8, MatTransform := 1, NumFramesDirty := 3 } ]

theorem updateTick_materials_length (dt : ℚ) (s : UpdateState) :
    (updateTick dt s).1.materials.length = s.materials.length := by
  rw [updateTick_materials, List.length_map, modifyAt_length]

/-- Within every tick, the water material's counter is 3 right after
`AnimateMaterials` (before the decrement) and 2 after
`UpdateMaterialCBs`, and the record is written. -/
theorem tick_water_trace (dt : ℚ) (s : UpdateState)
    (hw : s.waterIdx < s.materials.length) :
    (updateTick dt s).2.waterDirtyPreDecrement = 3 ∧
    (updateTick dt s).2.waterDirtyPostDecrement = 2 ∧
    (updateTick dt s).2.waterWrote = true := by
  obtain ⟨y, hy⟩ : ∃ y, s.materials[s.waterIdx]? = some y := by
    rcases h : s.materials[s.waterIdx]? with _ | y
    · rw [List.getElem?_eq_none_iff] at h; omega
    · exact ⟨y, rfl⟩
  have h1 : (modifyAt (animateWaterMaterial dt) s.waterIdx s.materials)[s.waterIdx]? =
      some (animateWaterMaterial dt y) := by
    rw [modifyAt_getElem?_self, hy]; rfl
  have hpre : (updateTick dt s).2.waterDirtyPreDecrement = 3 := by
    show matDirtyAt (modifyAt (animateWaterMaterial dt) s.waterIdx s.materials) s.waterIdx = 3
    rw [matDirtyAt, h1]
    rfl
  have hpost : (updateTick dt s).2.waterDirtyPostDecrement = 2 := by
    show matDirtyAt (updateMaterialCBs
      (modifyAt (animateWaterMaterial dt) s.waterIdx s.materials)
      (s.matBufs ((s.currFrameResourceIndex + 1) % gNumFrameResources))).1 s.waterIdx = 2
    rw [updateMaterialCBs_fst, matDirtyAt, List.getElem?_map, h1]
    show (matItemStep (animateWaterMaterial dt y)).NumFramesDirty = 2
    rw [matItemStep_dirty]
    norm_num [animateWaterMaterial, gNumFrameResources]
  refine ⟨hpre, hpost, ?_⟩
  show decide (0 < matDirtyAt (modifyAt (animateWaterMaterial dt) s.waterIdx s.materials)
    s.waterIdx) = true
  rw [matDirtyAt, h1]
  rfl

theorem run_water_traces (dts : List ℚ) (s : UpdateState)
    (hw : s.waterIdx < s.materials.length) :
    ∀ tr ∈ (updateRun dts s).2,
      tr.waterDirtyPreDecrement = 3 ∧ tr.waterDirtyPostDecrement = 2 ∧
      tr.waterWrote = true := by
  induction dts generalizing s with
  | nil => intro tr htr; simp [updateRun] at htr
  | cons dt rest ih =>
    intro tr htr
    simp only [updateRun] at htr
    rcases List.mem_cons.mp htr with h | h
    · subst h; exact tick_water_trace dt s hw
    · refine ih (updateTick dt s).1 ?_ tr h
      rw [updateTick_materials_length, updateTick_waterIdx]
      exact hw

/-- After every tick the water material's dirty counter stands at 2. -/
theorem run_water_dirty (dts : List ℚ) (s : UpdateState)
    (hw : s.waterIdx < s.materials.length) (hne : dts ≠ []) :
    matDirtyAt (updateRun dts s).1.materials s.waterIdx = 2 := by
  induction dts generalizing s with
  | nil => exact absurd rfl hne
  | cons dt rest ih =>
    have hw' : (updateTick dt s).1.waterIdx < (updateTick dt s).1.materials.length := by
      rw [updateTick_materials_length, updateTick_waterIdx]
      exact hw
    rcases rest with _ | ⟨dt2, rest2⟩
    · show matDirtyAt (updateTick dt s).1.materials s.waterIdx = 2
      have := tick_water_trace dt s hw
      have hwid : (updateTick dt s).1.waterIdx = s.waterIdx := updateTick_waterIdx dt s
      exact this.2.1
    · have h1 : (updateRun (dt :: dt2 :: rest2) s).1 =
          (updateRun (dt2 :: rest2) (updateTick dt s).1).1 := rfl
      rw [h1]
      have := ih (updateTick dt s).1 hw' (by simp)
      rw [updateTick_waterIdx] at this
      exact this

/-- A non-water material evolves purely by `matItemStep` each tick. -/
theorem run_other_material (dts : List ℚ) (s : UpdateState) (q : Nat)
    (hqw : q ≠ s.waterIdx) (y : Material) (hq : s.materials[q]? = some y) :
    (updateRun dts s).1.materials[q]? = some (matItemStep^[dts.length] y) := by
  induction dts generalizing s y with
  | nil => exact hq
  | cons dt rest ih =>
    have h1 : (updateRun (dt :: rest) s).1 = (updateRun rest (updateTick dt s).1).1 := rfl
    rw [h1]
    have htr := tick_mat_tracked dt s q y hq hqw
    have hqw' : q ≠ (updateTick dt s).1.waterIdx := by
      rw [updateTick_waterIdx]; exact hqw
    exact ih (updateTick dt s).1 hqw' (matItemStep y) htr

theorem matItemStep_iterate_dirty_zero (y : Material) (hy : y.NumFramesDirty = 3)
    (k : Nat) (hk : 3 ≤ k) : (matItemStep^[k] y).NumFramesDirty = 0 := by
  induction k with
  | zero => omega
  | succ n ih =>
    rw [Function.iterate_succ_apply']
    rcases Nat.lt_or_ge n 3 with h | h
    · have hn : n = 2 := by omega
      subst hn
      have h1 : (matItemStep^[1] y).NumFramesDirty = 2 := by
        rw [Function.iterate_one, matItemStep_dirty, hy]; norm_num
      have h2 : (matItemStep^[2] y).NumFramesDirty = 1 := by
        rw [Function.iterate_succ_apply', matItemStep_dirty, h1]; norm_num
      rw [matItemStep_dirty, h2]; norm_num
    · rw [matItemStep_dirty, ih h]
      norm_num

/-- C9: Because `AnimateMaterials` runs before `UpdateMaterialCBs` on
every tick and unconditionally re-arms the water material's dirty
counter to `gNumFrameResources`, the water material's record is
rewritten into the current frame resource's material buffer on every
single tick and its counter never reaches 0: on each tick it is 3
before the decrement and 2 after, while every other material's counter
reaches 0 after the first 3 ticks and stays there. -/
theorem c9_water_material_rearmed
    (dts : List ℚ) (items : List RenderItem)
    (objBufs : Nat → UploadBuf ObjectConstants)
    (matBufs : Nat → UploadBuf MaterialConstants) (i0 : Nat) :
    (∀ tr ∈ (updateRun dts
        { currFrameResourceIndex := i0, allRitems := items,
          materials := buildMaterials, waterIdx := 2,
          objBufs := objBufs, matBufs := matBufs }).2,
      tr.waterDirtyPreDecrement = 3 ∧ tr.waterDirtyPostDecrement = 2 ∧
        tr.waterWrote = true) ∧
    (dts ≠ [] →
      matDirtyAt (updateRun dts
        { currFrameResourceIndex := i0, allRitems := items,
          materials := buildMaterials, waterIdx := 2,
          objBufs := objBufs, matBufs := matBufs }).1.materials 2 = 2) ∧
    (3 ≤ dts.length → ∀ q < 12, q ≠ 2 →
      matDirtyAt (updateRun dts
        { currFrameResourceIndex := i0, allRitems := items,
          materials := buildMaterials, waterIdx := 2,
          objBufs := objBufs, matBufs := matBufs }).1.materials q = 0) := by
  have hw : (2 : Nat) < buildMaterials.length := by
    simp [buildMaterials]
  refine ⟨?_, ?_, ?_⟩
  · exact run_water_traces dts _ hw
  · intro hne
    exact run_water_dirty dts _ hw hne
  · intro hk q hq hqne
    obtain ⟨y, hy⟩ : ∃ y, buildMaterials[q]? = some y := by
      rcases h : buildMaterials[q]? with _ | y
      · rw [List.getElem?_eq_none_iff] at h
        simp [buildMaterials] at h
        omega
      · exact ⟨y, rfl⟩
    have hyd : y.NumFramesDirty = 3 := by
      have hmem : y ∈ buildMaterials := List.getElem?_mem hy
      have hall : ∀ m ∈ buildMaterials, m.NumFramesDirty = 3 := by decide
      exact hall y hmem
    have := run_other_material dts
      { currFrameResourceIndex := i0, allRitems := items,
        materials := buildMaterials, waterIdx := 2,
        objBufs := objBufs, matBufs := matBufs } q hqne y hy
    rw [matDirtyAt, this]
    simp only [Option.elim]
    exact matItemStep_iterate_dirty_zero y hyd dts.length hk

/-- Witness for C9: an empty item list, fresh buffers and a three-tick
run; both the nonemptiness and the length hypothesis hold at
`dts = [1, 1, 1]`. -/
theorem c9_witness :
    (∀ tr ∈ (updateRun [1, 1, 1]
        { currFrameResourceIndex := 0, allRitems := [],
          materials := buildMaterials, waterIdx := 2,
          objBufs := fun _ => UploadBuf.empty ObjectConstants,
          matBufs := fun _ => UploadBuf.empty MaterialConstants }).2,
      tr.waterDirtyPreDecrement = 3 ∧ tr.waterDirtyPostDecrement = 2 ∧
        tr.waterWrote = true) ∧
    matDirtyAt (updateRun [1, 1, 1]
        { currFrameResourceIndex := 0, allRitems := [],
          materials := buildMaterials, waterIdx := 2,
          objBufs := fun _ => UploadBuf.empty ObjectConstants,
          matBufs := fun _ => UploadBuf.empty MaterialConstants }).1.materials 2 = 2 ∧
    (∀ q < 12, q ≠ 2 →
      matDirtyAt (updateRun [1, 1, 1]
        { currFrameResourceIndex := 0, allRitems := [],
          materials := buildMaterials, waterIdx := 2,
          objBufs := fun _ => UploadBuf.empty ObjectConstants,
          matBufs := fun _ => UploadBuf.empty MaterialConstants }).1.materials q = 0) :=
  ⟨(c9_water_material_rearmed [1, 1, 1] [] _ _ 0).1,
   (c9_water_material_rearmed [1, 1, 1] [] _ _ 0).2.1 (by decide),
   (c9_water_material_rearmed [1, 1, 1] [] _ _ 0).2.2 (by decide)⟩

/-! ## Wave-to-GPU streaming

`TreeBillboardsApp::UpdateWaves`, lines 540-558: after the simulator
advances, every simulated vertex is copied into the current slot's
dynamic vertex buffer, and the waves render item's geometry is rebound
to that slot's buffer.  The simulator's per-vertex outputs are an
abstract view (`Position(i)`, `Normal(i)`, `Width()`, `Depth()`). -/

structure Float2 where
  x : ℚ
  y : ℚ
deriving DecidableEq, Repr

/-- Source `struct Vertex` (FrameResource.h): position, normal, texture
coordinates. -/
structure Vertex where
  Pos : Float3
  Normal : Float3
  TexC : Float2
deriving DecidableEq, Repr

/-- The read-only view of the wave simulator that the streaming loop
consumes: `VertexCount()`, `Position(i)`, `Normal(i)`, `Width()`,
`Depth()`. -/
structure WavesView where
  vertexCount : Nat
  position : Nat → Float3
  normal : Nat → Float3
  width : ℚ
  depth : ℚ

/-- The vertex record built by the loop body (lines 544-552):
`TexC.x = 0.5f + Pos.x / Width()`, `TexC.y = 0.5f - Pos.z / Depth()`. -/
def wavesVertexOf (w : WavesView) (i : Nat) : Vertex :=
  { Pos := w.position i
    Normal := w.normal i
    TexC := { x := 1 / 2 + (w.position i).x / w.width
              y := 1 / 2 - (w.position i).z / w.depth } }

/-- The streaming loop (lines 542-555): `CopyData(i, v)` for every
`i < VertexCount()`. -/
def updateWavesVB (w : WavesView) (buf : UploadBuf Vertex) : UploadBuf Vertex :=
  (List.range w.vertexCount).foldl (fun b i => b.copyData i (wavesVertexOf w i)) buf

/-- The wave-streaming slice of the per-frame state: the per-slot
dynamic vertex buffers and which slot's buffer the waves render item's
geometry currently references (`mWavesRitem->Geo->VertexBufferGPU`). -/
structure WaveState where
  bufs : Nat → UploadBuf Vertex
  wavesGeoVB : Nat

/-- Models `UpdateWaves` against the current slot: stream all vertices into
slot `slot`'s buffer, then rebind the waves geometry to it
(line 558). -/
def updateWaves (slot : Nat) (w : WavesView) (st : WaveState) : WaveState :=
  { bufs := Function.update st.bufs slot (updateWavesVB w (st.bufs slot))
    wavesGeoVB := slot }

/-- One frame of the wave path: the update phase (including
`UpdateWaves`) runs before `Draw`; the second component is the
vertex-buffer slot the draw pass records for the waves item, read from
the state *after* the rebind. -/
def frameWaves (slot : Nat) (w : WavesView) (st : WaveState) : WaveState × Nat :=
  let st' := updateWaves slot w st
  (st', st'.wavesGeoVB)

theorem foldl_copyData_range {α : Type} (n : Nat) (g : Nat → α)
    (buf : UploadBuf α) (i : Nat) :
    ((List.range n).foldl (fun b k => b.copyData k (g k)) buf).data i =
      (if i < n then some (g i) else buf.data i) ∧
    ((List.range n).foldl (fun b k => b.copyData k (g k)) buf).writes i =
      buf.writes i + (if i < n then 1 else 0) := by
  induction n generalizing buf with
  | zero => simp
  | succ n ih =>
    rw [List.range_succ, List.foldl_append, List.foldl_cons, List.foldl_nil]
    have hd := (ih buf).1
    have hw := (ih buf).2
    constructor
    · by_cases hin : i = n
      · subst hin
        simp [UploadBuf.copyData, Function.update]
      · rw [show (((List.range n).foldl (fun b k => b.copyData k (g k)) buf).copyData n
            (g n)).data i =
            ((List.range n).foldl (fun b k => b.copyData k (g k)) buf).data i by
          simp [UploadBuf.copyData, Function.update, hin]]
        rw [hd]
        by_cases h : i < n
        · rw [if_pos h, if_pos (by omega)]
        · rw [if_neg h, if_neg (by omega)]
    · by_cases hin : i = n
      · subst hin
        rw [show (((List.range i).foldl (fun b k => b.copyData k (g k)) buf).copyData i
            (g i)).writes i =
            ((List.range i).foldl (fun b k => b.copyData k (g k)) buf).writes i + 1 by
          simp [UploadBuf.copyData]]
        rw [hw]
        simp
      · rw [show (((List.range n).foldl (fun b k => b.copyData k (g k)) buf).copyData n
            (g n)).writes i =
            ((List.range n).foldl (fun b k => b.copyData k (g k)) buf).writes i by
          simp [UploadBuf.copyData, hin]]
        rw [hw]
        by_cases h : i < n
        · rw [if_pos h, if_pos (by omega)]
        · rw [if_neg h, if_neg (by omega)]

/-- C5: Wave-to-GPU streaming.  Every tick, after the simulator
advances, each vertex index `i < VertexCount()` of the current slot's
dynamic wave vertex buffer receives the simulator's position and normal
for `i`, with texture coordinates `TexC.x = 0.5 + Pos.x / Width` and
`TexC.y = 0.5 - Pos.z / Depth`; the write is unconditional (no dirty
tracking, one write per vertex per tick), and the waves render item's
geometry is rebound to the current slot's vertex buffer in the update
phase, before the draw pass records (the slot the draw pass sees is the
rebound one). -/
theorem c5_wave_streaming (slot : Nat) (w : WavesView) (st : WaveState) (i : Nat)
    (hi : i < w.vertexCount) :
    ((frameWaves slot w st).1.bufs slot).data i =
      some { Pos := w.position i, Normal := w.normal i,
             TexC := { x := 1 / 2 + (w.position i).x / w.width,
                       y := 1 / 2 - (w.position i).z / w.depth } } ∧
    ((frameWaves slot w st).1.bufs slot).writes i = (st.bufs slot).writes i + 1 ∧
    (frameWaves slot w st).1.wavesGeoVB = slot ∧
    (frameWaves slot w st).2 = slot := by
  have h := foldl_copyData_range w.vertexCount (wavesVertexOf w) (st.bufs slot) i
  have hbufs : (frameWaves slot w st).1.bufs slot = updateWavesVB w (st.bufs slot) := by
    show Function.update st.bufs slot (updateWavesVB w (st.bufs slot)) slot = _
    rw [Function.update_same]
  refine ⟨?_, ?_, rfl, rfl⟩
  · rw [hbufs]
    have := h.1
    rw [if_pos hi] at this
    rw [show (updateWavesVB w (st.bufs slot)).data i =
      ((List.range w.vertexCount).foldl
        (fun b k => b.copyData k (wavesVertexOf w k)) (st.bufs slot)).data i from rfl]
    rw [this]
    rfl
  · rw [hbufs]
    have := h.2
    rw [if_pos hi] at this
    rw [show (updateWavesVB w (st.bufs slot)).writes i =
      ((List.range w.vertexCount).foldl
        (fun b k => b.copyData k (wavesVertexOf w k)) (st.bufs slot)).writes i from rfl]
    rw [this]

/-- Concrete wave view used to witness C5. -/
def c5WitWaves : WavesView :=
  { vertexCount := 2
    position := fun i => ⟨(i : ℚ), 0, 1⟩
    normal := fun _ => ⟨0, 1, 0⟩
    width := 4
    depth := 5 }

/-- Concrete wave-stream state used to witness C5. -/
def c5WitState : WaveState :=
  { bufs := fun _ => UploadBuf.empty Vertex
    wavesGeoVB := 0 }

/-- Witness for C5 at slot 1, vertex 0 of a two-vertex wave view. -/
theorem c5_witness :
    ((frameWaves 1 c5WitWaves c5WitState).1.bufs 1).data 0 =
      some { Pos := c5WitWaves.position 0, Normal := c5WitWaves.normal 0,
             TexC := { x := 1 / 2 + (c5WitWaves.position 0).x / c5WitWaves.width,
                       y := 1 / 2 - (c5WitWaves.position 0).z / c5WitWaves.depth } } ∧
    ((frameWaves 1 c5WitWaves c5WitState).1.bufs 1).writes 0 =
      (c5WitState.bufs 1).writes 0 + 1 ∧
    (frameWaves 1 c5WitWaves c5WitState).1.wavesGeoVB = 1 ∧
    (frameWaves 1 c5WitWaves c5WitState).2 = 1 :=
  c5_wave_streaming 1 c5WitWaves c5WitState 0 (by decide)

/-! ## Draw submission

`TreeBillboardsApp::DrawRenderItems` (lines 2429-2459) and the layer
sequence recorded by `TreeBillboardsApp::Draw` (lines 284-351).
Commands are modelled as an explicit trace; GPU virtual addresses and
descriptor handles are byte offsets. -/

/-- The command-list operations the draw path records. -/
inductive Cmd where
  | rsSetViewports
  | rsSetScissorRects
  | resourceBarrier
  | clearRenderTargetView
  | clearDepthStencilView
  | omSetRenderTargets
  | setDescriptorHeaps
  | setGraphicsRootSignature
  | setVertexBuffers (geo : Nat)
  | setIndexBuffer (geo : Nat)
  | setPrimitiveTopology (topo : Nat)
  | setGraphicsRootDescriptorTable (rootParam : Nat) (handle : Nat)
  | setGraphicsRootConstantBufferView (rootParam : Nat) (addr : Nat)
  | drawIndexedInstanced (indexCount instanceCount startIndexLocation : Nat)
      (baseVertexLocation : Int) (startInstanceLocation : Nat)
  | setPipelineState (pso : String)
deriving DecidableEq, Repr

/-- The per-item data `DrawRenderItems` reads: the item's geometry and
topology, its material's descriptor and constant-buffer indices, its
own constant-buffer index, and the indexed-draw arguments. -/
structure DrawItem where
  geo : Nat
  primitiveType : Nat
  matDiffuseSrvHeapIndex : Nat
  matCBIndex : Nat
  objCBIndex : Nat
  indexCount : Nat
  startIndexLocation : Nat
  baseVertexLocation : Int
deriving DecidableEq, Repr

/-- Frame-constant inputs of `DrawRenderItems`: descriptor increment
size, SRV heap start, the aligned constant-record sizes
(`d3dUtil::CalcConstantBufferByteSize`), and the current frame
resource's upload-buffer base addresses. -/
structure DrawParams where
  cbvSrvDescriptorSize : Nat
  srvHeapStart : Nat
  objCBByteSize : Nat
  matCBByteSize : Nat
  objCBBase : Nat
  matCBBase : Nat

/-- Models `DrawRenderItems`: for each item in list order, bind vertex/index
buffers and topology, the material's texture descriptor (heap start
offset by `DiffuseSrvHeapIndex` increments), the object and material
constant-buffer addresses (base + index * aligned size), then issue one
indexed-instanced draw with instance count 1. -/
def drawRenderItems (p : DrawParams) : List DrawItem → List Cmd
  | [] => []
  | ri :: rest =>
    Cmd.setVertexBuffers ri.geo ::
    Cmd.setIndexBuffer ri.geo ::
    Cmd.setPrimitiveTopology ri.primitiveType ::
    Cmd.setGraphicsRootDescriptorTable 0
      (p.srvHeapStart + ri.matDiffuseSrvHeapIndex * p.cbvSrvDescriptorSize) ::
    Cmd.setGraphicsRootConstantBufferView 1
      (p.objCBBase + ri.objCBIndex * p.objCBByteSize) ::
    Cmd.setGraphicsRootConstantBufferView 3
      (p.matCBBase + ri.matCBIndex * p.matCBByteSize) ::
    Cmd.drawIndexedInstanced ri.indexCount 1 ri.startIndexLocation ri.baseVertexLocation 0 ::
    drawRenderItems p rest

/-- Models `TreeBillboardsApp::Draw`: the command list is reset with the
"opaque" pipeline state, the frame setup is recorded, then the four
layers are drawn in the fixed order opaque, alpha-tested, tree-sprite
billboards, transparent, switching pipeline state before each of the
last three. -/
def drawFrame (p : DrawParams) (passCBAddr : Nat)
    (opaqueItems alphaTestedItems treeSpriteItems transparentItems : List DrawItem) : List Cmd :=
  Cmd.setPipelineState "opaque" ::
  Cmd.rsSetViewports ::
  Cmd.rsSetScissorRects ::
  Cmd.resourceBarrier ::
  Cmd.clearRenderTargetView ::
  Cmd.clearDepthStencilView ::
  Cmd.omSetRenderTargets ::
  Cmd.setDescriptorHeaps ::
  Cmd.setGraphicsRootSignature ::
  Cmd.setGraphicsRootConstantBufferView 2 passCBAddr ::
  (drawRenderItems p opaqueItems ++
    Cmd.setPipelineState "alphaTested" ::
    (drawRenderItems p alphaTestedItems ++
      Cmd.setPipelineState "treeSprites" ::
      (drawRenderItems p treeSpriteItems ++
        Cmd.setPipelineState "transparent" ::
        (drawRenderItems p transparentItems ++ [Cmd.resourceBarrier]))))

/-- Extract the indexed-draw arguments of a command, if any. -/
def getDraw : Cmd → Option (Nat × Nat × Nat × Int × Nat)
  | Cmd.drawIndexedInstanced a b c d e => some (a, b, c, d, e)
  | _ => none

/-- The draws in a command stream, each tagged with the pipeline state
in effect when it was recorded. -/
def drawsWithPSO : List Cmd → String → List (String × (Nat × Nat × Nat × Int × Nat))
  | [], _ => []
  | Cmd.setPipelineState pso :: rest, _ => drawsWithPSO rest pso
  | Cmd.drawIndexedInstanced a b c d e :: rest, cur =>
    (cur, (a, b, c, d, e)) :: drawsWithPSO rest cur
  | _ :: rest, cur => drawsWithPSO rest cur

/-- The draw arguments recorded for one item. -/
def drawArgsOf (ri : DrawItem) : Nat × Nat × Nat × Int × Nat :=
  (ri.indexCount, 1, ri.startIndexLocation, ri.baseVertexLocation, 0)

theorem drawRenderItems_flatMap (p : DrawParams) (ritems : List DrawItem) :
    drawRenderItems p ritems =
      ritems.flatMap (fun ri =>
        [Cmd.setVertexBuffers ri.geo,
         Cmd.setIndexBuffer ri.geo,
         Cmd.setPrimitiveTopology ri.primitiveType,
         Cmd.setGraphicsRootDescriptorTable 0
           (p.srvHeapStart + ri.matDiffuseSrvHeapIndex * p.cbvSrvDescriptorSize),
         Cmd.setGraphicsRootConstantBufferView 1
           (p.objCBBase + ri.objCBIndex * p.objCBByteSize),
         Cmd.setGraphicsRootConstantBufferView 3
           (p.matCBBase + ri.matCBIndex * p.matCBByteSize),
         Cmd.drawIndexedInstanced ri.indexCount 1 ri.startIndexLocation
           ri.baseVertexLocation 0]) := by
  induction ritems with
  | nil => rfl
  | cons ri rest ih => simp [drawRenderItems, ih]

theorem drawRenderItems_draws (p : DrawParams) (ritems : List DrawItem) :
    (drawRenderItems p ritems).filterMap getDraw = ritems.map drawArgsOf := by
  induction ritems with
  | nil => rfl
  | cons ri rest ih =>
    simp only [drawRenderItems, List.filterMap_cons]
    simp [getDraw, ih, drawArgsOf]

/-- C6: For every layer list, `DrawRenderItems` visits the items in the
list's stored order and issues exactly one indexed-instanced draw call
per item, with instance count 1, and each item's draw is immediately
preceded by binding its mesh's vertex/index buffers and topology, its
material's texture descriptor at heap start plus
`DiffuseSrvHeapIndex * descriptorSize`, and its object and material
constant-buffer addresses computed as base address plus index times
aligned record size. -/
theorem c6_draw_submission (p : DrawParams) (ritems : List DrawItem) :
    (drawRenderItems p ritems).filterMap getDraw =
      ritems.map (fun ri =>
        (ri.indexCount, 1, ri.startIndexLocation, ri.baseVertexLocation, 0)) ∧
    drawRenderItems p ritems =
      ritems.flatMap (fun ri =>
        [Cmd.setVertexBuffers ri.geo,
         Cmd.setIndexBuffer ri.geo,
         Cmd.setPrimitiveTopology ri.primitiveType,
         Cmd.setGraphicsRootDescriptorTable 0
           (p.srvHeapStart + ri.matDiffuseSrvHeapIndex * p.cbvSrvDescriptorSize),
         Cmd.setGraphicsRootConstantBufferView 1
           (p.objCBBase + ri.objCBIndex * p.objCBByteSize),
         Cmd.setGraphicsRootConstantBufferView 3
           (p.matCBBase + ri.matCBIndex * p.matCBByteSize),
         Cmd.drawIndexedInstanced ri.indexCount 1 ri.startIndexLocation
           ri.baseVertexLocation 0]) :=
  ⟨drawRenderItems_draws p ritems, drawRenderItems_flatMap p ritems⟩

theorem drawsWithPSO_drawRenderItems (p : DrawParams) (l : List DrawItem)
    (rest : List Cmd) (cur : String) :
    drawsWithPSO (drawRenderItems p l ++ rest) cur =
      l.map (fun ri => (cur, drawArgsOf ri)) ++ drawsWithPSO rest cur := by
  induction l with
  | nil => rfl
  | cons ri tail ih =>
    show (cur, drawArgsOf ri) :: drawsWithPSO (drawRenderItems p tail ++ rest) cur = _
    rw [ih]
    rfl

/-- C7: Within every frame, the recorded command stream submits the
render layers in the fixed order opaque, alpha-tested,
alpha-tested-billboard (tree sprites), transparent, each layer's draws
recorded under its corresponding pipeline state; the shape of the trace
does not depend on the frame's inputs, so the order is the same in
every frame. -/
theorem c7_layer_submission_order (p : DrawParams) (passCBAddr : Nat)
    (opaqueItems alphaTestedItems treeSpriteItems transparentItems : List DrawItem)
    (initialPSO : String) :
    drawsWithPSO
        (drawFrame p passCBAddr opaqueItems alphaTestedItems treeSpriteItems
          transparentItems) initialPSO =
      opaqueItems.map (fun ri => ("opaque", drawArgsOf ri)) ++
      alphaTestedItems.map (fun ri => ("alphaTested", drawArgsOf ri)) ++
      treeSpriteItems.map (fun ri => ("treeSprites", drawArgsOf ri)) ++
      transparentItems.map (fun ri => ("transparent", drawArgsOf ri)) := by
  simp only [drawFrame, drawsWithPSO]
  rw [drawsWithPSO_drawRenderItems]
  simp only [drawsWithPSO]
  rw [drawsWithPSO_drawRenderItems]
  simp only [drawsWithPSO]
  rw [drawsWithPSO_drawRenderItems]
  simp only [drawsWithPSO]
  rw [drawsWithPSO_drawRenderItems]
  simp only [drawsWithPSO]
  simp

/-! ## The wave-disturb caller

`TreeBillboardsApp::UpdateWaves`, lines 523-535: every quarter second of
accumulated total time, one `Disturb(i, j, r)` call with
`i = MathHelper::Rand(4, RowCount() - 5)`,
`j = MathHelper::Rand(4, ColumnCount() - 5)`,
`r = MathHelper::RandF(0.2f, 0.5f)`.  The simulator is constructed as
`Waves(305, 150, ...)` (line 207). -/

/-- Value of `mWaves->RowCount()` for the `Waves(305, 150, 1.0f, 0.03f, 4.0f,
0.2f)` instance. -/
def wavesRowCount : Nat := 305

/-- Value of `mWaves->ColumnCount()` for the same instance. -/
def wavesColumnCount : Nat := 150

/-- Modelled from the spec: `MathHelper::Rand(a, b)` (Common/MathHelper.h,
not under src/) returns a uniformly chosen integer in the closed range
`[a, b]`; the standard implementation is `a + rand() % ((b - a) + 1)`,
with the raw generator output as a seed. -/
def mathHelperRand (a b : Int) (seed : Nat) : Int :=
  a + (seed : Int) % (b - a + 1)

/-- Modelled from the spec: `MathHelper::RandF()` (Common/MathHelper.h,
not under src/) returns `(float)rand() / RAND_MAX`, a value in `[0, 1]`
(RAND_MAX = 32767). -/
def mathHelperRandF01 (seed : Nat) : ℚ :=
  ((seed % 32768 : Nat) : ℚ) / 32767

/-- Modelled from the spec: `MathHelper::RandF(a, b) = a + RandF() * (b - a)`. -/
def mathHelperRandF (a b : ℚ) (seed : Nat) : ℚ :=
  a + mathHelperRandF01 seed * (b - a)

/-- Modelled from the spec (§4.1, Waves.cpp not under src/): `disturb`
requires strictly interior grid indices -- never the boundary row or
column. -/
def disturbInteriorOK (rows cols : Nat) (i j : Int) : Prop :=
  1 ≤ i ∧ i ≤ (rows : Int) - 2 ∧ 1 ≤ j ∧ j ≤ (cols : Int) - 2

/-- One disturb call as issued by the scheduler. -/
structure DisturbCall where
  i : Int
  j : Int
  r : ℚ

/-- The quarter-second gate of `UpdateWaves` (lines 525-535): if the
accumulated total time has advanced 0.25s past `t_base`, advance
`t_base` by 0.25 and issue one disturb call with the random arguments
of the source. -/
def updateWavesDisturb (tBase totalTime : ℚ) (s1 s2 s3 : Nat) :
    ℚ × Option DisturbCall :=
  if totalTime - tBase ≥ 1 / 4 then
    (tBase + 1 / 4,
     some { i := mathHelperRand 4 ((wavesRowCount : Int) - 5) s1
            j := mathHelperRand 4 ((wavesColumnCount : Int) - 5) s2
            r := mathHelperRandF (1 / 5) (1 / 2) s3 })
  else (tBase, none)

/-- A run of wave-update ticks: each input is the tick's observed total
time together with the three raw generator outputs; `t_base` is
threaded through (it is a function-local `static`).  Returns the final
`t_base` and the issued disturb calls in order. -/
def disturbRun : List (ℚ × Nat × Nat × Nat) → ℚ → ℚ × List DisturbCall
  | [], tb => (tb, [])
  | (tt, s1, s2, s3) :: rest, tb =>
    let (tb', c) := updateWavesDisturb tb tt s1 s2 s3
    let (tbF, cs) := disturbRun rest tb'
    (tbF, (c.elim cs fun call => call :: cs))

theorem mathHelperRand_mem (a b : Int) (seed : Nat) (hab : a ≤ b) :
    a ≤ mathHelperRand a b seed ∧ mathHelperRand a b seed ≤ b := by
  unfold mathHelperRand
  have hpos : (0 : Int) < b - a + 1 := by omega
  have h1 : 0 ≤ (seed : Int) % (b - a + 1) := Int.emod_nonneg _ (by omega)
  have h2 : (seed : Int) % (b - a + 1) < b - a + 1 := Int.emod_lt_of_pos _ hpos
  omega

theorem mathHelperRandF01_mem (seed : Nat) :
    0 ≤ mathHelperRandF01 seed ∧ mathHelperRandF01 seed ≤ 1 := by
  unfold mathHelperRandF01
  constructor
  · positivity
  · rw [div_le_one (by norm_num)]
    have h : (seed % 32768 : Nat) < 32768 := Nat.mod_lt _ (by norm_num)
    calc ((seed % 32768 : Nat) : ℚ) ≤ 32767 := by
          exact_mod_cast Nat.lt_succ_iff.mp (by exact_mod_cast h)
      _ = 32767 := rfl

theorem mathHelperRandF_mem (a b : ℚ) (seed : Nat) (hab : a ≤ b) :
    a ≤ mathHelperRandF a b seed ∧ mathHelperRandF a b seed ≤ b := by
  unfold mathHelperRandF
  obtain ⟨h0, h1⟩ := mathHelperRandF01_mem seed
  constructor
  · nlinarith
  · nlinarith

theorem disturbRun_calls (ticks : List (ℚ × Nat × Nat × Nat)) (tb : ℚ) :
    ∀ c ∈ (disturbRun ticks tb).2,
      4 ≤ c.i ∧ c.i ≤ 300 ∧ 4 ≤ c.j ∧ c.j ≤ 145 ∧
      1 / 5 ≤ c.r ∧ c.r ≤ 1 / 2 := by
  induction ticks generalizing tb with
  | nil => intro c hc; simp [disturbRun] at hc
  | cons t rest ih =>
    obtain ⟨tt, s1, s2, s3⟩ := t
    intro c hc
    simp only [disturbRun] at hc
    by_cases hgate : tt - tb ≥ 1 / 4
    · rw [show updateWavesDisturb tb tt s1 s2 s3 =
          (tb + 1 / 4,
           some { i := mathHelperRand 4 ((wavesRowCount : Int) - 5) s1
                  j := mathHelperRand 4 ((wavesColumnCount : Int) - 5) s2
                  r := mathHelperRandF (1 / 5) (1 / 2) s3 }) from
          by rw [updateWavesDisturb, if_pos hgate]] at hc
      simp only [Option.elim] at hc
      rcases List.mem_cons.mp hc with h | h
      · subst h
        refine ⟨?_, ?_, ?_, ?_, ?_, ?_⟩
        · exact (mathHelperRand_mem 4 ((wavesRowCount : Int) - 5) s1 (by norm_num [wavesRowCount])).1
        · have := (mathHelperRand_mem 4 ((wavesRowCount : Int) - 5) s1 (by norm_num [wavesRowCount])).2
          simpa [wavesRowCount] using this
        · exact (mathHelperRand_mem 4 ((wavesColumnCount : Int) - 5) s2 (by norm_num [wavesColumnCount])).1
        · have := (mathHelperRand_mem 4 ((wavesColumnCount : Int) - 5) s2 (by norm_num [wavesColumnCount])).2
          simpa [wavesColumnCount] using this
        · exact (mathHelperRandF_mem (1 / 5) (1 / 2) s3 (by norm_num)).1
        · exact (mathHelperRandF_mem (1 / 5) (1 / 2) s3 (by norm_num)).2
      · exact ih _ c h
    · rw [show updateWavesDisturb tb tt s1 s2 s3 = (tb, none) from
          by rw [updateWavesDisturb, if_neg hgate]] at hc
      simp only [Option.elim] at hc
      exact ih _ c hc

theorem disturbRun_budget (ticks : List (ℚ × Nat × Nat × Nat)) (tb : ℚ) (T : ℚ)
    (hT : ∀ t ∈ ticks, t.1 ≤ T) (htb : tb ≤ T) :
    (disturbRun ticks tb).1 = tb + ((disturbRun ticks tb).2.length : ℚ) / 4 ∧
    (disturbRun ticks tb).1 ≤ T := by
  induction ticks generalizing tb with
  | nil => simpa [disturbRun] using htb
  | cons t rest ih =>
    obtain ⟨tt, s1, s2, s3⟩ := t
    have htt : tt ≤ T := hT (tt, s1, s2, s3) (List.mem_cons_self _ _)
    have hTrest : ∀ t ∈ rest, t.1 ≤ T := fun t ht => hT t (List.mem_cons_of_mem _ ht)
    by_cases hgate : tt - tb ≥ 1 / 4
    · have hrw : updateWavesDisturb tb tt s1 s2 s3 =
          (tb + 1 / 4,
           some { i := mathHelperRand 4 ((wavesRowCount : Int) - 5) s1
                  j := mathHelperRand 4 ((wavesColumnCount : Int) - 5) s2
                  r := mathHelperRandF (1 / 5) (1 / 2) s3 }) := by
        rw [updateWavesDisturb, if_pos hgate]
      have hstep : disturbRun ((tt, s1, s2, s3) :: rest) tb =
          ((disturbRun rest (tb + 1 / 4)).1,
            { i := mathHelperRand 4 ((wavesRowCount : Int) - 5) s1
              j := mathHelperRand 4 ((wavesColumnCount : Int) - 5) s2
              r := mathHelperRandF (1 / 5) (1 / 2) s3 } ::
              (disturbRun rest (tb + 1 / 4)).2) := by
        simp [disturbRun, hrw, Option.elim]
      have htb' : tb + 1 / 4 ≤ T := by linarith
      obtain ⟨h1, h2⟩ := ih (tb + 1 / 4) hTrest htb'
      rw [hstep]
      constructor
      · simp only [List.length_cons]
        rw [h1]
        push_cast
        ring
      · exact h2
    · have hrw : updateWavesDisturb tb tt s1 s2 s3 = (tb, none) := by
        rw [updateWavesDisturb, if_neg hgate]
      have hstep : disturbRun ((tt, s1, s2, s3) :: rest) tb =
          ((disturbRun rest tb).1, (disturbRun rest tb).2) := by
        simp [disturbRun, hrw, Option.elim]
      rw [hstep]
      exact ih tb hTrest htb

/-- C8: Disturb caller precondition.  Every `Disturb(i, j, r)` call the
wave-update step issues has `i` in `[4, RowCount()-5]`, `j` in
`[4, ColumnCount()-5]` and `r` in `[0.2, 0.5]`, hence strictly interior
grid indices -- the out-of-interior contract-violation case of
`disturb` is never reached from this caller -- and over any run whose
observed total times stay at most `T ≥ 0`, at most one call is made per
0.25 seconds of accumulated total time (`calls * 0.25 ≤ T`). -/
theorem c8_disturb_caller_precondition (ticks : List (ℚ × Nat × Nat × Nat)) (T : ℚ)
    (hT : ∀ t ∈ ticks, t.1 ≤ T) (hT0 : 0 ≤ T) :
    (∀ c ∈ (disturbRun ticks 0).2,
      4 ≤ c.i ∧ c.i ≤ (wavesRowCount : Int) - 5 ∧
      4 ≤ c.j ∧ c.j ≤ (wavesColumnCount : Int) - 5 ∧
      1 / 5 ≤ c.r ∧ c.r ≤ 1 / 2 ∧
      disturbInteriorOK wavesRowCount wavesColumnCount c.i c.j) ∧
    ((disturbRun ticks 0).2.length : ℚ) * (1 / 4) ≤ T := by
  constructor
  · intro c hc
    obtain ⟨h1, h2, h3, h4, h5, h6⟩ := disturbRun_calls ticks 0 c hc
    refine ⟨h1, ?_, h3, ?_, h5, h6, ?_⟩
    · simpa [wavesRowCount] using h2
    · simpa [wavesColumnCount] using h4
    · unfold disturbInteriorOK
      simp only [wavesRowCount, wavesColumnCount]
      omega
  · obtain ⟨h1, h2⟩ := disturbRun_budget ticks 0 T hT hT0
    rw [h1] at h2
    linarith

/-- Witness for C8: two ticks whose total times are 0.3s and 0.6s, all
below the budget T = 1; both hypotheses hold by computation. -/
theorem c8_witness :
    (∀ c ∈ (disturbRun [(3 / 10, 0, 5, 7), (3 / 5, 1, 2, 3)] 0).2,
      4 ≤ c.i ∧ c.i ≤ (wavesRowCount : Int) - 5 ∧
      4 ≤ c.j ∧ c.j ≤ (wavesColumnCount : Int) - 5 ∧
      1 / 5 ≤ c.r ∧ c.r ≤ 1 / 2 ∧
      disturbInteriorOK wavesRowCount wavesColumnCount c.i c.j) ∧
    ((disturbRun [(3 / 10, 0, 5, 7), (3 / 5, 1, 2, 3)] 0).2.length : ℚ) * (1 / 4) ≤ 1 :=
  c8_disturb_caller_precondition [(3 / 10, 0, 5, 7), (3 / 5, 1, 2, 3)] 1
    (by intro t ht; fin_cases ht <;> norm_num) (by norm_num)

/-! ## Build-time index assignment

`TreeBillboardsApp::BuildRenderItems` (lines 1750-2427) constructs every
render item the same way: `item->ObjCBIndex = objCBIndex++;` with a
single function-local counter starting at 0, `item->Mat` looked up in
`mMaterials`, one push into a layer list and exactly one push into
`mAllRitems` (the first three items are pushed after construction, in
construction order, which preserves the correspondence).  The model
folds that per-item step over an arbitrary description list.
`BuildFrameResources` (lines 1618-1625) then sizes each of the three
frame resources' upload buffers by `mAllRitems.size()` and
`mMaterials.size()`. -/

/-- Source `enum class RenderLayer` (lines 57-64). -/
inductive RenderLayer where
  | Opaque
  | Transparent
  | AlphaTested
  | AlphaTestedTreeSprites
deriving DecidableEq, Repr

/-- What varies between the construction sites of `BuildRenderItems`:
the material looked up from `mMaterials` and the layer list pushed
into.  (World transforms, geometry and draw arguments do not affect
index assignment.) -/
structure ItemDesc where
  mat : Material
  layer : RenderLayer

/-- A constructed render item, restricted to the fields the bounds
argument needs. -/
structure BuiltItem where
  objCBIndex : Nat
  mat : Material

/-- The state `BuildRenderItems` threads through its construction
sites: the `objCBIndex` counter, `mAllRitems`, and the
`mRitemLayer` lists. -/
structure BuildState where
  objCBIndexCounter : Nat
  allRitems : List BuiltItem
  layers : RenderLayer → List BuiltItem

/-- One construction site: assign `ObjCBIndex = objCBIndex++`, push the
item into its layer list and into `mAllRitems`. -/
def buildStep (st : BuildState) (d : ItemDesc) : BuildState :=
  let it : BuiltItem := { objCBIndex := st.objCBIndexCounter, mat := d.mat }
  { objCBIndexCounter := st.objCBIndexCounter + 1
    allRitems := st.allRitems ++ [it]
    layers := fun l => if l = d.layer then st.layers l ++ [it] else st.layers l }

/-- Initial `UINT objCBIndex = 0;` and empty collections at function entry. -/
def initBuild : BuildState :=
  { objCBIndexCounter := 0, allRitems := [], layers := fun _ => [] }

/-- Models `BuildRenderItems` as a fold of the per-site step over the scene's
construction sequence. -/
def buildRenderItems (ds : List ItemDesc) : BuildState :=
  ds.foldl buildStep initBuild

/-- The capacities `BuildFrameResources` passes to each
`FrameResource`: object-constant buffer sized to `mAllRitems.size()`,
material-constant buffer sized to `mMaterials.size()`. -/
structure FrameResourceCaps where
  objectCount : Nat
  materialCount : Nat
deriving DecidableEq, Repr

/-- Models `BuildFrameResources` (lines 1618-1625): `gNumFrameResources`
identically sized frame resources. -/
def buildFrameResources (st : BuildState) : List FrameResourceCaps :=
  List.replicate gNumFrameResources
    { objectCount := st.allRitems.length, materialCount := buildMaterials.length }

theorem buildFold_inv (ds : List ItemDesc) (st : BuildState)
    (h1 : st.objCBIndexCounter = st.allRitems.length)
    (h2 : st.allRitems.map BuiltItem.objCBIndex = List.range st.allRitems.length)
    (h3 : ∀ it ∈ st.allRitems, it.mat ∈ buildMaterials)
    (h4 : ∀ l, ∀ it ∈ st.layers l, it ∈ st.allRitems)
    (hds : ∀ d ∈ ds, d.mat ∈ buildMaterials) :
    (ds.foldl buildStep st).objCBIndexCounter = (ds.foldl buildStep st).allRitems.length ∧
    (ds.foldl buildStep st).allRitems.map BuiltItem.objCBIndex =
      List.range (ds.foldl buildStep st).allRitems.length ∧
    (∀ it ∈ (ds.foldl buildStep st).allRitems, it.mat ∈ buildMaterials) ∧
    (∀ l, ∀ it ∈ (ds.foldl buildStep st).layers l,
      it ∈ (ds.foldl buildStep st).allRitems) := by
  induction ds generalizing st with
  | nil => exact ⟨h1, h2, h3, h4⟩
  | cons d rest ih =>
    rw [List.foldl_cons]
    refine ih (buildStep st d) ?_ ?_ ?_ ?_
      (fun d' hd' => hds d' (List.mem_cons_of_mem d hd'))
    · simp [buildStep, h1]
    · simp only [buildStep, List.map_append, List.length_append, List.map_cons,
        List.map_nil, List.length_cons, List.length_nil]
      rw [h2, h1, List.range_succ]
    · intro it hit
      rcases List.mem_append.mp hit with h | h
      · exact h3 it h
      · rw [List.mem_singleton.mp h]
        exact hds d (List.mem_cons_self d rest)
    · intro l it hit
      simp only [buildStep] at hit
      by_cases hl : l = d.layer
      · rw [if_pos hl] at hit
        rcases List.mem_append.mp hit with h | h
        · exact List.mem_append_left _ (h4 l it h)
        · exact List.mem_append_right _ h
      · rw [if_neg hl] at hit
        exact List.mem_append_left _ (h4 l it hit)

/-- C10: `ObjCBIndex` values are assigned from a single counter
incremented once per constructed item, so after `BuildRenderItems` they
are exactly `0 .. mAllRitems.size()-1` and pairwise distinct; the
twelve materials' `MatCBIndex` values are exactly `0 .. 11` and
distinct; every frame resource's object-constant buffer has capacity
`mAllRitems.size()` and material buffer capacity `mMaterials.size()`;
hence every constant write and draw-time address computation indexes
strictly within the corresponding upload buffer's bounds, for items in
`mAllRitems` and in every layer list. -/
theorem c10_index_assignment (ds : List ItemDesc)
    (hmats : ∀ d ∈ ds, d.mat ∈ buildMaterials) :
    (buildRenderItems ds).allRitems.map BuiltItem.objCBIndex =
      List.range (buildRenderItems ds).allRitems.length ∧
    ((buildRenderItems ds).allRitems.map BuiltItem.objCBIndex).Nodup ∧
    buildMaterials.map Material.MatCBIndex = List.range 12 ∧
    (∀ fr ∈ buildFrameResources (buildRenderItems ds),
      fr.objectCount = (buildRenderItems ds).allRitems.length ∧
      fr.materialCount = buildMaterials.length) ∧
    (∀ it ∈ (buildRenderItems ds).allRitems,
      it.objCBIndex < (buildRenderItems ds).allRitems.length ∧
      it.mat.MatCBIndex < buildMaterials.length) ∧
    (∀ l, ∀ it ∈ (buildRenderItems ds).layers l,
      it ∈ (buildRenderItems ds).allRitems) := by
  unfold buildRenderItems
  obtain ⟨hc, hmap, hin, hlay⟩ := buildFold_inv ds initBuild rfl rfl
    (by intro it hit; simp [initBuild] at hit)
    (by intro l it hit; simp [initBuild] at hit) hmats
  have hmatIdx : ∀ m ∈ buildMaterials, m.MatCBIndex < buildMaterials.length := by
    decide
  refine ⟨hmap, ?_, by decide, ?_, ?_, hlay⟩
  · rw [hmap]
    exact List.nodup_range _
  · intro fr hfr
    have := List.eq_of_mem_replicate hfr
    rw [this]
    exact ⟨rfl, rfl⟩
  · intro it hit
    constructor
    · have hmem := List.mem_map_of_mem BuiltItem.objCBIndex hit
      rw [hmap] at hmem
      exact List.mem_range.mp hmem
    · exact hmatIdx it.mat (hin it hit)

/-- Two concrete construction sites used to witness C10: a grass item
in the opaque layer and a water item in the transparent layer. -/
def c10WitDescs : List ItemDesc :=
  [ { mat := { Name := "grass", MatCBIndex := 0, DiffuseSrvHeapIndex := 0,
               DiffuseAlbedo := ⟨1, 1, 1, 1⟩,
               FresnelR0 := ⟨1 / 100, 1 / 100, 1 / 100⟩,
               Roughness := 1 / 8, MatTransform := 1, NumFramesDirty := 3 },
      layer := RenderLayer.Opaque },
    { mat := { Name := "water", MatCBIndex := 2, DiffuseSrvHeapIndex := 2,
               DiffuseAlbedo := ⟨1, 1, 1, 1 / 2⟩,
               FresnelR0 := ⟨1 / 10, 1 / 10, 1 / 10⟩,
               Roughness := 0, MatTransform := 1, NumFramesDirty := 3 },
      layer := RenderLayer.Transparent } ]

/-- Witness for C10: two construction sites, a grass item in the opaque
layer and a water item in the transparent layer. -/
theorem c10_witness :
    (buildRenderItems c10WitDescs).allRitems.map BuiltItem.objCBIndex =
      List.range (buildRenderItems c10WitDescs).allRitems.length ∧
    ((buildRenderItems c10WitDescs).allRitems.map BuiltItem.objCBIndex).Nodup ∧
    buildMaterials.map Material.MatCBIndex = List.range 12 ∧
    (∀ fr ∈ buildFrameResources (buildRenderItems c10WitDescs),
      fr.objectCount = (buildRenderItems c10WitDescs).allRitems.length ∧
      fr.materialCount = buildMaterials.length) ∧
    (∀ it ∈ (buildRenderItems c10WitDescs).allRitems,
      it.objCBIndex < (buildRenderItems c10WitDescs).allRitems.length ∧
      it.mat.MatCBIndex < buildMaterials.length) ∧
    (∀ l, ∀ it ∈ (buildRenderItems c10WitDescs).layers l,
      it ∈ (buildRenderItems c10WitDescs).allRitems) :=
  c10_index_assignment c10WitDescs
    (by
      intro d hd
      fin_cases hd
      · exact List.mem_cons_self _ _
      · refine List.mem_cons_of_mem _ (List.mem_cons_of_mem _ (List.mem_cons_self _ _)))

end TreeBillboards
